import Mathlib

/- Verification development for the kolos.dom library: a panel component
with viewport-overflow flipping and a dismount/remount relocation trick
(part_000), and a DOM utility service tracking viewport, scroll, pointer
and keyboard state (dom.service.ts).  Browser-provided quantities (element
rectangles, scroll offsets, viewport sizes) are modelled as rationals,
which share with JS numbers the ordered-field reasoning the code uses; the
DOM tree is modelled explicitly as a finite node set with a children map. -/

set_option maxHeartbeats 1000000

/- Generic association-list helpers, used for JS objects, DOM attribute
maps and listener tables.  assocSet mirrors setAttribute / property
assignment: it replaces the value in place when the key is present and
appends otherwise, preserving insertion order the way JS objects do. -/

def assocFind {α β : Type} [DecidableEq α] (l : List (α × β)) (k : α) : Option β :=
  match l with
  | [] => none
  | (k2, v) :: rest => if k2 = k then some v else assocFind rest k

def assocSet {α β : Type} [DecidableEq α] (l : List (α × β)) (k : α) (v : β) : List (α × β) :=
  if l.any (fun p => decide (p.1 = k)) then
    l.map (fun p => if p.1 = k then (k, v) else p)
  else
    l ++ [(k, v)]

def assocRemove {α β : Type} [DecidableEq α] (l : List (α × β)) (k : α) : List (α × β) :=
  l.filter (fun p => decide (p.1 ≠ k))

/- ===== DOMService (dom.service.ts, second version) =====
The mutable scalar/rect state of the service and its event handlers.
Host readings that the handlers consult (window.innerWidth, pageXOffset,
and so on) are passed in as event payloads. -/

structure IViewport where
  w : ℚ
  h : ℚ
deriving DecidableEq

structure IScroll where
  x : ℚ
  y : ℚ
deriving DecidableEq

structure IVisible where
  x1 : ℚ
  x2 : ℚ
  y1 : ℚ
  y2 : ℚ
deriving DecidableEq

structure DOMServiceState where
  viewport : IViewport := { w := 0, h := 0 }
  scroll : IScroll := { x := 0, y := 0 }
  visible : IVisible := { x1 := 0, x2 := 0, y1 := 0, y2 := 0 }
  pressedKeys : List Nat := []
  isPointerPressed : Int := 0
  pointerCoordsX : ℚ := 0
  pointerCoordsY : ℚ := 0
  idleTime : ℚ := 0

/- docElement.clientWidth, window.innerWidth, etc. at the moment
refreshViewport runs. -/
structure ViewportReading where
  clientWidth : ℚ
  innerWidth : ℚ
  clientHeight : ℚ
  innerHeight : ℚ

/- window.pageXOffset, docElement.scrollLeft, body.scrollLeft, etc. at the
moment refreshScroll runs. -/
structure ScrollReading where
  pageXOffset : ℚ
  scrollLeftDoc : ℚ
  scrollLeftBody : ℚ
  pageYOffset : ℚ
  scrollTopDoc : ℚ
  scrollTopBody : ℚ

/- The JS a || b on numbers: b when a is falsy (zero), a otherwise. -/
def jsOr (a b : ℚ) : ℚ := if a = 0 then b else a

def refreshVisible (s : DOMServiceState) : DOMServiceState :=
  { s with visible :=
      { x1 := s.scroll.x
        x2 := s.scroll.x + s.viewport.w
        y1 := s.scroll.y
        y2 := s.scroll.y + s.viewport.h } }

def refreshViewport (r : ViewportReading) (s : DOMServiceState) : DOMServiceState :=
  refreshVisible
    { s with viewport :=
        { w := max r.clientWidth (jsOr r.innerWidth 0)
          h := max r.clientHeight (jsOr r.innerHeight 0) } }

def refreshScroll (r : ScrollReading) (s : DOMServiceState) : DOMServiceState :=
  refreshVisible
    { s with scroll :=
        { x := jsOr r.pageXOffset (jsOr r.scrollLeftDoc r.scrollLeftBody)
          y := jsOr r.pageYOffset (jsOr r.scrollTopDoc r.scrollTopBody) } }

def onWindowBlur (s : DOMServiceState) : DOMServiceState :=
  { s with pressedKeys := [] }

def onDocumentKeyDown (keyCode : Nat) (s : DOMServiceState) : DOMServiceState :=
  { s with
      pressedKeys := if keyCode ∈ s.pressedKeys then s.pressedKeys else s.pressedKeys ++ [keyCode]
      idleTime := 0 }

def onDocumentKeyUp (keyCode : Nat) (s : DOMServiceState) : DOMServiceState :=
  { s with pressedKeys := s.pressedKeys.filter (fun k => decide (k ≠ keyCode)) }

def isKeyPressed (keyCode : Nat) (s : DOMServiceState) : Bool :=
  decide (keyCode ∈ s.pressedKeys)

def onWindowResize (r : ViewportReading) (s : DOMServiceState) : DOMServiceState :=
  { refreshViewport r s with idleTime := 0 }

def onDocumentScroll (r : ScrollReading) (s : DOMServiceState) : DOMServiceState :=
  { refreshScroll r s with idleTime := 0 }

def onDocumentPointerMove (x y : ℚ) (s : DOMServiceState) : DOMServiceState :=
  { s with pointerCoordsX := x, pointerCoordsY := y, idleTime := 0 }

def onDocumentPointerDown (s : DOMServiceState) : DOMServiceState :=
  { s with isPointerPressed := s.isPointerPressed + 1, idleTime := 0 }

def onDocumentPointerUp (s : DOMServiceState) : DOMServiceState :=
  { s with isPointerPressed := min 0 s.isPointerPressed }

/- Browser events observed by the service, with the host readings the
corresponding handler consults. -/
inductive DomEvent where
  | keyDown (keyCode : Nat)
  | keyUp (keyCode : Nat)
  | windowBlur
  | pointerDown
  | pointerUp
  | pointerMove (x y : ℚ)
  | documentScroll (r : ScrollReading)
  | windowResize (r : ViewportReading)

def svcStep (s : DOMServiceState) (e : DomEvent) : DOMServiceState :=
  match e with
  | .keyDown k => onDocumentKeyDown k s
  | .keyUp k => onDocumentKeyUp k s
  | .windowBlur => onWindowBlur s
  | .pointerDown => onDocumentPointerDown s
  | .pointerUp => onDocumentPointerUp s
  | .pointerMove x y => onDocumentPointerMove x y s
  | .documentScroll r => onDocumentScroll r s
  | .windowResize r => onWindowResize r s

def svcRun (s : DOMServiceState) (evs : List DomEvent) : DOMServiceState :=
  evs.foldl svcStep s

/- The constructor: fields start at their initializers, then
refreshViewport() and refreshScroll() run with the initial host readings. -/
def svcConstruct (rv : ViewportReading) (rs : ScrollReading) : DOMServiceState :=
  refreshScroll rs (refreshViewport rv {})

/- ===== String utilities =====
Structural (kernel-evaluable) models of String.prototype.split and of
decodeURIComponent, working on character lists.  splitOnChar matches the
JS split semantics used by parseQueryString: "".split(c) = [""], and
separators at the ends produce empty fragments. -/

def splitOnChar (sep : Char) (l : List Char) : List (List Char) :=
  l.foldr
    (fun c acc =>
      match acc with
      | cur :: rest => if c = sep then [] :: cur :: rest else (c :: cur) :: rest
      | [] => [[c]])
    [[]]

def jsSplit (sep : Char) (s : String) : List String :=
  (splitOnChar sep s.data).map String.mk

def hexVal (c : Char) : Option Nat :=
  if '0' ≤ c ∧ c ≤ '9' then some (c.toNat - 48)
  else if 'A' ≤ c ∧ c ≤ 'F' then some (c.toNat - 55)
  else if 'a' ≤ c ∧ c ≤ 'f' then some (c.toNat - 87)
  else none

/- Percent-decoding of ASCII escapes; this is decodeURIComponent on the
inputs that appear below (the real host function additionally assembles
multi-byte UTF-8 sequences and raises URIError on malformed input). -/
def percentDecodeChars : List Char → List Char
  | [] => []
  | '%' :: a :: b :: rest =>
    match hexVal a, hexVal b with
    | some x, some y => Char.ofNat (16 * x + y) :: percentDecodeChars rest
    | _, _ => '%' :: percentDecodeChars (a :: b :: rest)
  | c :: rest => c :: percentDecodeChars rest

def decodeM (s : String) : String := String.mk (percentDecodeChars s.data)

/- ===== DOMService.parseQueryString =====
Parametrised by the decode function so that the structural behaviour can
be stated for any decoder; decodeM instantiates it. -/

inductive QVal where
  | str (s : String)
  | arr (l : List String)
deriving DecidableEq

/- One loop iteration's raw (key, value) extraction: pair = v.split("="),
key = decode(pair[0]), value = decode(pair[1]).  When the fragment has no
"=", pair[1] is undefined and decodeURIComponent(undefined) is the string
"undefined". -/
def rawPair (decode : String → String) (v : String) : String × String :=
  let pair := jsSplit '=' v
  (decode (pair.headD ""),
    match pair.drop 1 with
    | [] => "undefined"
    | r :: _ => decode r)

def qsInsert (decode : String → String) (query_string : List (String × QVal))
    (pr : String × String) : List (String × QVal) :=
  match assocFind query_string pr.1 with
  | none => assocSet query_string pr.1 (QVal.str (decode pr.2))
  | some (QVal.str s) => assocSet query_string pr.1 (QVal.arr [s, decode pr.2])
  | some (QVal.arr l) => assocSet query_string pr.1 (QVal.arr (l ++ [decode pr.2]))

def parseQueryString (decode : String → String) (query : String) : List (String × QVal) :=
  (jsSplit '&' query).foldl (fun query_string v => qsInsert decode query_string (rawPair decode v)) []

def rawPairs (decode : String → String) (query : String) : List (String × String) :=
  (jsSplit '&' query).map (rawPair decode)

/- ===== DOMService.convertToFormData ===== -/

inductive JSVal where
  | str (s : String)
  | num (q : ℚ)
  | bool (b : Bool)
  | file (name : String)
  | arr (l : List JSVal)
  | obj (fields : List (String × JSVal))
  | null
  | undef

def typeofV : JSVal → String
  | .str _ => "string"
  | .num _ => "number"
  | .bool _ => "boolean"
  | .file _ => "object"
  | .arr _ => "object"
  | .obj _ => "object"
  | .null => "object"
  | .undef => "undefined"

def isTruthy : JSVal → Bool
  | .str s => s ≠ ""
  | .num q => q ≠ 0
  | .bool b => b
  | .file _ => true
  | .arr _ => true
  | .obj _ => true
  | .null => false
  | .undef => false

/- JS loose inequality value != null: false exactly for null and undefined. -/
def jsNeNull : JSVal → Bool
  | .null => false
  | .undef => false
  | _ => true

def isFile : JSVal → Bool
  | .file _ => true
  | _ => false

def isObject (value : JSVal) : Bool :=
  jsNeNull value && (typeofV value == "object" || typeofV value == "function")

def isArray : JSVal → Bool
  | .arr _ => true
  | _ => false

def arrayElems : JSVal → List JSVal
  | .arr l => l
  | _ => []

def objectProps : JSVal → List (String × JSVal)
  | .obj fields => fields
  | _ => []

/- FormData is modelled as the ordered list of appended (name, value)
entries; formDataAppend is the body of the for-in loop. -/
def formDataAppend (fd : List (String × JSVal)) (kv : String × JSVal) : List (String × JSVal) :=
  let key := kv.1
  let val := kv.2
  let type := typeofV val
  if type == "string" || type == "number" || (type == "boolean" && isTruthy val) || isFile val then
    fd ++ [(key, val)]
  else if isArray val then
    fd ++ (arrayElems val).map (fun innerVal => (key ++ "[]", innerVal))
  else if isObject val then
    fd ++ (objectProps val).map (fun f => (key ++ "[" ++ f.1 ++ "]", f.2))
  else fd

def convertToFormData (data : List (String × JSVal)) : List (String × JSVal) :=
  data.foldl formDataAppend []

/- The entries contributed by one key, as the C8 claim enumerates them. -/
def formEntries (kv : String × JSVal) : List (String × JSVal) :=
  match kv.2 with
  | .str _ => [(kv.1, kv.2)]
  | .num _ => [(kv.1, kv.2)]
  | .file _ => [(kv.1, kv.2)]
  | .bool b => if b then [(kv.1, kv.2)] else []
  | .arr l => l.map (fun inner => (kv.1 ++ "[]", inner))
  | .obj fields => fields.map (fun f => (kv.1 ++ "[" ++ f.1 ++ "]", f.2))
  | .null => []
  | .undef => []

/- ===== DOMService.getSelectedTextElement =====
The two selection APIs the function consults, as fallible host calls;
nodes are identified by naturals and absent/null results are none. -/

structure SelectionHost where
  /- window.getSelection().anchorNode; the error case models the whole
  try-block read raising (selection API unavailable). -/
  anchorNodeResult : Except Unit (Option Nat)
  /- anchorNode.parentNode -/
  parentNode : Nat → Option Nat
  /- document.selection.createRange().parentElement(); the error case
  models document.selection being absent, so the catch block itself
  raises. -/
  legacyParentElement : Except Unit (Option Nat)

def getSelectedTextElement (h : SelectionHost) : Except Unit (Option Nat) :=
  match h.anchorNodeResult with
  | .ok anchorNode =>
    .ok (match anchorNode with
      | some a => h.parentNode a
      | none => none)
  | .error _ => h.legacyParentElement

/- ===== DOM tree model =====
Nodes are naturals; nodes lists the finite universe the document can see
(used as the search space for parentNode and as climbing fuel for
Node.contains).  children gives each node's ordered child list and attrs
its attribute list.  document.documentElement and document.body are the
fixed nodes 0 and 1. -/

structure Dom where
  nodes : List Nat
  children : Nat → List Nat
  attrs : Nat → List (String × String)

def docElementId : Nat := 0
def bodyId : Nat := 1

def Dom.getAttribute (d : Dom) (n : Nat) (k : String) : Option String :=
  assocFind (d.attrs n) k

def Dom.setAttribute (d : Dom) (n : Nat) (k v : String) : Dom :=
  { d with attrs := fun m => if m = n then assocSet (d.attrs n) k v else d.attrs m }

def Dom.removeAttribute (d : Dom) (n : Nat) (k : String) : Dom :=
  { d with attrs := fun m => if m = n then assocRemove (d.attrs n) k else d.attrs m }

def Dom.parentOf (d : Dom) (x : Nat) : Option Nat :=
  d.nodes.find? (fun q => decide (x ∈ d.children q))

/- Taking a node out of whatever parent holds it; insertBefore and
appendChild both do this to their argument before re-inserting it. -/
def Dom.eraseEverywhere (d : Dom) (x : Nat) : Dom :=
  { d with children := fun q => (d.children q).erase x }

def Dom.setChildren (d : Dom) (p : Nat) (l : List Nat) : Dom :=
  { d with children := fun q => if q = p then l else d.children q }

/- Insert x directly after the first occurrence of anchor (the effect of
parent.insertBefore(x, anchor.nextSibling)); an absent anchor appends,
matching insertBefore with a null reference node. -/
def insertAfterL (l : List Nat) (anchor x : Nat) : List Nat :=
  match l with
  | [] => [x]
  | c :: rest => if c = anchor then c :: x :: rest else c :: insertAfterL rest anchor x

def Dom.insertAfter (d : Dom) (p anchor x : Nat) : Dom :=
  let d2 := d.eraseEverywhere x
  d2.setChildren p (insertAfterL (d2.children p) anchor x)

def Dom.appendChild (d : Dom) (p x : Nat) : Dom :=
  let d2 := d.eraseEverywhere x
  d2.setChildren p (d2.children p ++ [x])

def Dom.removeChild (d : Dom) (p x : Nat) : Dom :=
  d.setChildren p ((d.children p).erase x)

/- Node.contains(root, x): x is root or a descendant of root, computed by
climbing parent links with fuel bounded by the node universe. -/
def containsFuel (d : Dom) (root : Nat) : Nat → Nat → Bool
  | 0, _ => false
  | fuel + 1, x =>
    if x = root then true
    else
      match d.parentOf x with
      | none => false
      | some p => containsFuel d root fuel p

def Dom.containsNode (d : Dom) (root x : Nat) : Bool :=
  containsFuel d root (d.nodes.length + 1) x

/- ===== Inline style (CSSOM) model =====
node.style.prop = val parses the style attribute into declarations,
replaces the declaration for prop and reserialises.  Only the attribute
round trip matters to the claims; the parse keeps name: value pairs and
drops malformed fragments like real CSS parsing does. -/

def trimSpaces (l : List Char) : List Char :=
  ((l.dropWhile (fun c => c = ' ')).reverse.dropWhile (fun c => c = ' ')).reverse

def joinWith (sep : List Char) : List (List Char) → List Char
  | [] => []
  | [x] => x
  | x :: xs => x ++ sep ++ joinWith sep xs

def parseDecl (l : List Char) : Option (List Char × List Char) :=
  match splitOnChar ':' l with
  | [] => none
  | [_] => none
  | n :: rest => some (trimSpaces n, trimSpaces (joinWith [':'] rest))

def styleAssign (old : Option String) (prop val : String) : String :=
  let ds := ((splitOnChar ';' (old.getD "").data).filterMap parseDecl).filter
    (fun dcl => decide (dcl.1 ≠ prop.data))
  let ds2 := ds ++ [(prop.data, val.data)]
  String.mk (joinWith [';', ' '] (ds2.map (fun dcl => dcl.1 ++ [':', ' '] ++ dcl.2)))

def styleSetProp (d : Dom) (n : Nat) (prop val : String) : Dom :=
  d.setAttribute n "style" (styleAssign (d.getAttribute n "style") prop val)

/- Stringification of a JS number when concatenated with "px". -/
def qpx (q : ℚ) : String := toString q ++ "px"

/- ===== PanelComponent (part_000) ===== -/

inductive PanelComponentStates where
  | Open
  | Closed
deriving DecidableEq

/- this.overflowing: an object whose sides are present once assigned. -/
structure OverflowRec where
  left : Option ℚ := none
  right : Option ℚ := none
  top : Option ℚ := none
  bottom : Option ℚ := none
deriving DecidableEq

/- The component's fields.  listeners maps a namespace to its pushed
Listener objects, each either still bound (true) or unbound by a previous
removeListeners call (false); none models the field being undefined.
originalParent and originalStyle are the _originalParent field and the
style entry of _originalAttributes.  The two configuration getters are
carried as fields so subclass overrides are covered. -/
structure PanelSt where
  state : PanelComponentStates := .Closed
  nodeId : Nat
  dom : Dom
  overflowing : Option OverflowRec := none
  avatarId : Option Nat := none
  originalParent : Option (Option Nat) := none
  originalStyle : Option (Option String) := none
  isDismounted : Bool := false
  listeners : Option (List (String × List Bool)) := none
  isDismountingNeeded : Bool := false
  postponeOverflowCalculating : Bool := false

def PanelSt.setAttr (s : PanelSt) (k v : String) : PanelSt :=
  { s with dom := s.dom.setAttribute s.nodeId k v }

def PanelSt.removeAttr (s : PanelSt) (k : String) : PanelSt :=
  { s with dom := s.dom.removeAttribute s.nodeId k }

def PanelSt.getAttr (s : PanelSt) (k : String) : Option String :=
  s.dom.getAttribute s.nodeId k

def addListener (s : PanelSt) (ns : String) : PanelSt :=
  let ls := s.listeners.getD []
  let entry := (assocFind ls ns).getD []
  { s with listeners := some (assocSet ls ns (entry ++ [true])) }

/- removeListeners(namespace) unbinds every listener in the namespace but
leaves them in the array.  Reading this._listeners[namespace] when the
field or the entry is undefined raises a TypeError, reported as false. -/
def removeListeners (s : PanelSt) (ns : String) : PanelSt × Bool :=
  match s.listeners with
  | none => (s, false)
  | some ls =>
    match assocFind ls ns with
    | none => (s, false)
    | some entry =>
      ({ s with listeners := some (assocSet ls ns (entry.map (fun _ => false))) }, true)

/- ===== DOMService.getOffsetFromVisible ===== -/

structure RectPos where
  left : ℚ
  top : ℚ

structure OffsetFromVisible where
  left : ℚ
  top : ℚ
  right : ℚ
  bottom : ℚ

def getOffsetFromVisible (viewport : IViewport) (rect : RectPos) (width height : ℚ) :
    OffsetFromVisible :=
  { left := rect.left
    top := rect.top
    right := viewport.w - rect.left - width
    bottom := viewport.h - rect.top - height }

/- The geometry read by setOverflowingAttributes: the service's viewport,
the panel's bounding rect, and getWidth(true) / getHeight(true). -/
structure OverflowArgs where
  viewport : IViewport
  rect : RectPos
  width : ℚ
  height : ℚ

/- if (!this.overflowing) this.overflowing = {}. -/
def initOverflowing (s : PanelSt) : PanelSt :=
  if s.overflowing.isNone then { s with overflowing := some {} } else s

/- The four if-blocks of setOverflowingAttributes, one per side. -/
def overflowLeftBlock (offset : OffsetFromVisible) (s : PanelSt) : PanelSt :=
  if offset.left < 0 then
    let s1 := { s with overflowing := some { s.overflowing.getD {} with left := some offset.left } }
    let s2 := s1.setAttr "overflowing-left" ""
    if offset.left < offset.right then s2.setAttr "x-direction" "right" else s2
  else s

def overflowRightBlock (offset : OffsetFromVisible) (s : PanelSt) : PanelSt :=
  if offset.right < 0 then
    let s1 := { s with overflowing := some { s.overflowing.getD {} with right := some offset.right } }
    let s2 := s1.setAttr "overflowing-right" ""
    if offset.left > offset.right then s2.setAttr "x-direction" "left" else s2
  else s

def overflowBottomBlock (offset : OffsetFromVisible) (s : PanelSt) : PanelSt :=
  if offset.bottom < 0 then
    let s1 := { s with overflowing := some { s.overflowing.getD {} with bottom := some offset.bottom } }
    let s2 := s1.setAttr "overflowing-bottom" ""
    if offset.top > offset.bottom then s2.setAttr "y-direction" "top" else s2
  else s

def overflowTopBlock (offset : OffsetFromVisible) (s : PanelSt) : PanelSt :=
  if offset.top < 0 then
    let s1 := { s with overflowing := some { s.overflowing.getD {} with top := some offset.top } }
    let s2 := s1.setAttr "overflowing-top" ""
    if offset.top < offset.bottom then s2.setAttr "y-direction" "bottom" else s2
  else s

def setOverflowingAttributes (oa : OverflowArgs) (s : PanelSt) : PanelSt :=
  let offset := getOffsetFromVisible oa.viewport oa.rect oa.width oa.height
  ((overflowTopBlock offset
      (overflowBottomBlock offset
        (overflowRightBlock offset
          (overflowLeftBlock offset
            (initOverflowing s))))).setAttr "overflowing-calculated" "true")

/- for (let key in this.overflowing) removes overflowing-<key> for each
side present on the object. -/
def removeOverflowingAttributes (s : PanelSt) : PanelSt :=
  let s := s.removeAttr "x-direction"
  let s := s.removeAttr "y-direction"
  let s :=
    match s.overflowing with
    | none => s
    | some ov =>
      let s := if ov.left.isSome then s.removeAttr "overflowing-left" else s
      let s := if ov.right.isSome then s.removeAttr "overflowing-right" else s
      let s := if ov.bottom.isSome then s.removeAttr "overflowing-bottom" else s
      let s := if ov.top.isSome then s.removeAttr "overflowing-top" else s
      s
  s.removeAttr "overflowing-calculated"

/- The inputs of dismount: the resolved left/top destructuring defaults
(or explicitly passed coordinates), the host's offsetWidth/offsetHeight
readings, and the avatar node (by default a fresh deep clone of the
node). -/
structure DismountArgs where
  left : ℚ
  top : ℚ
  width : ℚ
  height : ℚ
  avatar : Nat

/- cloneNode(true) for the default avatar: a fresh childless node carrying
a copy of the source node's attributes. -/
def mkClone (d : Dom) (src fresh : Nat) : Dom :=
  { d with attrs := fun m => if m = fresh then d.attrs src else d.attrs m }

/- dismount: record the original style attribute and parent, dim the
avatar, pin the node's geometry through its inline style, put the avatar
after the node, move the node to document.body, register the dismounting
listeners (window resize and capturing scroll).  A detached node makes
this.node.parentNode.insertBefore raise, reported as false with the
mutations applied up to that point. -/
def dismount (a : DismountArgs) (s : PanelSt) : PanelSt × Bool :=
  let origStyle := s.getAttr "style"
  let origParent := s.dom.parentOf s.nodeId
  let s := { s with
    avatarId := some a.avatar
    originalStyle := some origStyle
    originalParent := some origParent }
  let s := { s with dom := styleSetProp s.dom a.avatar "opacity" "0" }
  let s := { s with dom := styleSetProp s.dom s.nodeId "width" (qpx a.width) }
  let s := { s with dom := styleSetProp s.dom s.nodeId "height" (qpx a.height) }
  let s := { s with dom := styleSetProp s.dom s.nodeId "position" "absolute" }
  let s := { s with dom := styleSetProp s.dom s.nodeId "left" (qpx a.left) }
  let s := { s with dom := styleSetProp s.dom s.nodeId "top" (qpx a.top) }
  let s := { s with dom := styleSetProp s.dom s.nodeId "z-index" "9999" }
  match s.dom.parentOf s.nodeId with
  | none => (s, false)
  | some p =>
    let s := { s with dom := s.dom.insertAfter p s.nodeId a.avatar }
    let s := { s with dom := s.dom.appendChild bodyId s.nodeId }
    let s := addListener s "dismounting"
    let s := addListener s "dismounting"
    ({ s with isDismounted := true }, true)

/- mount: restore the recorded attributes (only "style" is recorded; a
null value removes the attribute, any other value val is written as
val || ""), put the node back after the avatar when the avatar is still in
the document and otherwise detach the node, remove the avatar, unbind the
dismounting listeners, clear the bookkeeping fields.  Each step that
dereferences a missing parent raises, reported as false with the earlier
mutations kept. -/
/- Restoring the recorded attributes: only "style" is recorded; a null
value removes the attribute, any other value val is written as val || "". -/
def mountRestoreStyle (s : PanelSt) : PanelSt :=
  match s.originalStyle with
  | none => s
  | some val =>
    match val with
    | none => s.removeAttr "style"
    | some v => s.setAttr "style" v

/- Putting the node back: after the avatar when the avatar is still in the
document, otherwise this.node.parentElement.removeChild(this.node); a
missing parent raises (false). -/
def mountAvatarStep (s : PanelSt) : PanelSt × Bool :=
  match s.avatarId with
  | some av =>
    if s.dom.containsNode docElementId av then
      match s.dom.parentOf av with
      | some p => ({ s with dom := s.dom.insertAfter p av s.nodeId }, true)
      | none => (s, false)
    else
      match s.dom.parentOf s.nodeId with
      | some p => ({ s with dom := s.dom.removeChild p s.nodeId }, true)
      | none => (s, false)
  | none =>
    match s.dom.parentOf s.nodeId with
    | some p => ({ s with dom := s.dom.removeChild p s.nodeId }, true)
    | none => (s, false)

/- if (this._avatar) this._avatar.parentElement.removeChild(this._avatar). -/
def mountRemoveAvatar (s : PanelSt) : PanelSt × Bool :=
  match s.avatarId with
  | none => (s, true)
  | some av =>
    match s.dom.parentOf av with
    | some p => ({ s with dom := s.dom.removeChild p av }, true)
    | none => (s, false)

/- Unbind the dismounting listeners and clear the bookkeeping fields. -/
def mountFinish (s : PanelSt) : PanelSt × Bool :=
  match removeListeners s "dismounting" with
  | (s, false) => (s, false)
  | (s, true) =>
    ({ s with
        avatarId := none
        originalParent := none
        originalStyle := none
        isDismounted := false }, true)

def mount (s : PanelSt) : PanelSt × Bool :=
  match mountAvatarStep (mountRestoreStyle s) with
  | (s, false) => (s, false)
  | (s, true) =>
    match mountRemoveAvatar s with
    | (s, false) => (s, false)
    | (s, true) => mountFinish s

/- open(): early return when already open; otherwise optionally dismount,
set the state and the open attribute, run overflow calculation (the
optional postponement only defers it within the same turn), and register
the document-level pointerup dismissal listener.  The Bool reports
completion without a raised exception. -/
def openPanel (da : DismountArgs) (oa : OverflowArgs) (s : PanelSt) : PanelSt × Bool :=
  if s.state = PanelComponentStates.Open then (s, true)
  else
    match (if s.isDismountingNeeded then dismount da s else (s, true)) with
    | (s, false) => (s, false)
    | (s, true) =>
      let s := { s with state := PanelComponentStates.Open }
      let s := s.setAttr "open" "true"
      let s := setOverflowingAttributes oa s
      let s := addListener s "opening"
      (s, true)

/- close(): early return when already closed; otherwise set the state,
drop the open attribute, remount when dismounted, remove the overflow
attributes and unbind the opening listeners. -/
def closePanel (s : PanelSt) : PanelSt × Bool :=
  if s.state = PanelComponentStates.Closed then (s, true)
  else
    let s := { s with state := PanelComponentStates.Closed }
    let s := s.removeAttr "open"
    match (if s.isDismounted then mount s else (s, true)) with
    | (s, false) => (s, false)
    | (s, true) =>
      let s := removeOverflowingAttributes s
      removeListeners s "opening"

/- Listeners in the opening namespace that are still bound. -/
def boundCount (s : PanelSt) : Nat :=
  match s.listeners with
  | none => 0
  | some ls => ((assocFind ls "opening").getD []).countP (fun b => b)

/- The dismissal closure registered by open(), for one listener
invocation: isInner is this.node.contains(e.target). -/
def pointerUpHandler (isInner : Bool) (s : PanelSt) : PanelSt :=
  if isInner then s else (closePanel s).1

/- A document pointerup dispatch: the handler runs once for each opening
listener bound at dispatch time. -/
def docPointerUp (isInner : Bool) (s : PanelSt) : PanelSt :=
  (List.range (boundCount s)).foldl (fun st _ => pointerUpHandler isInner st) s

/- ===== Predicates used by the claim statements ===== -/

/- The C10 invariant: the visible rectangle is derived from scroll and
viewport. -/
def visibleDerived (s : DOMServiceState) : Prop :=
  s.visible.x1 = s.scroll.x ∧ s.visible.x2 = s.scroll.x + s.viewport.w ∧
  s.visible.y1 = s.scroll.y ∧ s.visible.y2 = s.scroll.y + s.viewport.h

/- No event of the list releases key k: neither a keyup for k nor a window
blur. -/
def noKill (k : Nat) (l : List DomEvent) : Prop :=
  ∀ e ∈ l, e ≠ DomEvent.keyUp k ∧ e ≠ DomEvent.windowBlur

/- A keydown for k was observed and not followed by a keyup for k or a
blur. -/
def pressedSpec (k : Nat) (evs : List DomEvent) : Prop :=
  ∃ l1 l2, evs = l1 ++ DomEvent.keyDown k :: l2 ∧ noKill k l2

/- The value parseQueryString is claimed to associate with a key from the
list of that key's values in occurrence order. -/
def qvalOf : List String → Option QVal
  | [] => none
  | [v] => some (QVal.str v)
  | v :: vs => some (QVal.arr (v :: vs))

/- Accumulator form of qvalOf, following the three insertion branches. -/
def combineQ : Option QVal → List String → Option QVal
  | o, [] => o
  | none, v :: vs => combineQ (some (QVal.str v)) vs
  | some (QVal.str s), v :: vs => combineQ (some (QVal.arr [s, v])) vs
  | some (QVal.arr l), v :: vs => combineQ (some (QVal.arr (l ++ [v]))) vs

/- x climbs to document.documentElement through the listed ancestors. -/
def IsAncChain (d : Dom) : Nat → List Nat → Prop
  | x, [] => x = docElementId
  | x, y :: ys => d.parentOf x = some y ∧ IsAncChain d y ys

/- ===== Concrete fixtures for witnesses and counterexamples ===== -/

/- A small attached document: documentElement 0 > body 1 > container 2 >
panel node 3, with 4 reserved for the avatar clone. -/
def wDom : Dom :=
  { nodes := [0, 1, 2, 3, 4]
    children := fun q => if q = 0 then [1] else if q = 1 then [2] else if q = 2 then [3] else []
    attrs := fun m => if m = 3 then [("style", "color: red"), ("class", "panel")] else [] }

def wPanel : PanelSt := { nodeId := 3, dom := wDom }

def wArgs : DismountArgs := { left := 10, top := 20, width := 30, height := 40, avatar := 4 }

def wOA : OverflowArgs :=
  { viewport := { w := 100, h := 100 }, rect := { left := -5, top := 2 }, width := 20, height := 30 }

/- The same document with the container 2 detached from the document
(body 1 is empty): the panel node 3 has a parent but that parent is not
under documentElement. -/
def cDom : Dom :=
  { nodes := [0, 1, 2, 3, 4]
    children := fun q => if q = 0 then [1] else if q = 2 then [3] else []
    attrs := fun _ => [] }

def cPanel : PanelSt := { nodeId := 3, dom := cDom }

/- A host on which both selection APIs are unavailable. -/
def cSelHost : SelectionHost :=
  { anchorNodeResult := .error (), parentNode := fun _ => none, legacyParentElement := .error () }

/- ===================================================================
   Theorems
   =================================================================== -/

theorem visibleDerived_refreshVisible (s : DOMServiceState) : visibleDerived (refreshVisible s) := by
  simp [refreshVisible, visibleDerived]

theorem visibleDerived_svcStep (s : DOMServiceState) (e : DomEvent)
    (h : visibleDerived s) : visibleDerived (svcStep s e) := by
  cases e with
  | keyDown k => exact h
  | keyUp k => exact h
  | windowBlur => exact h
  | pointerDown => exact h
  | pointerUp => exact h
  | pointerMove x y => exact h
  | documentScroll r =>
    simpa [svcStep, onDocumentScroll, visibleDerived] using
      visibleDerived_refreshVisible { s with scroll :=
        { x := jsOr r.pageXOffset (jsOr r.scrollLeftDoc r.scrollLeftBody)
          y := jsOr r.pageYOffset (jsOr r.scrollTopDoc r.scrollTopBody) } }
  | windowResize r =>
    simpa [svcStep, onWindowResize, visibleDerived] using
      visibleDerived_refreshVisible { s with viewport :=
        { w := max r.clientWidth (jsOr r.innerWidth 0)
          h := max r.clientHeight (jsOr r.innerHeight 0) } }

theorem visibleDerived_svcRun (s : DOMServiceState) (evs : List DomEvent)
    (h : visibleDerived s) : visibleDerived (svcRun s evs) := by
  induction evs generalizing s with
  | nil => exact h
  | cons e evs ih => exact ih (svcStep s e) (visibleDerived_svcStep s e h)

theorem visibleDerived_svcConstruct (rv : ViewportReading) (rs : ScrollReading) :
    visibleDerived (svcConstruct rv rs) := by
  exact visibleDerived_refreshVisible _

/-- C10: after the constructor and after every event-driven operation of
the service (every refreshViewport and refreshScroll runs through
refreshVisible), the visible rectangle is derived from scroll and
viewport: x1 = scroll.x, x2 = scroll.x + viewport.w, y1 = scroll.y,
y2 = scroll.y + viewport.h, hence x2 - x1 = viewport.w and
y2 - y1 = viewport.h. -/
theorem kolos_C10 (rv : ViewportReading) (rs : ScrollReading) (evs : List DomEvent) :
    visibleDerived (svcConstruct rv rs) ∧
    visibleDerived (svcRun (svcConstruct rv rs) evs) ∧
    (svcRun (svcConstruct rv rs) evs).visible.x2 - (svcRun (svcConstruct rv rs) evs).visible.x1 =
      (svcRun (svcConstruct rv rs) evs).viewport.w ∧
    (svcRun (svcConstruct rv rs) evs).visible.y2 - (svcRun (svcConstruct rv rs) evs).visible.y1 =
      (svcRun (svcConstruct rv rs) evs).viewport.h := by
  have h0 := visibleDerived_svcConstruct rv rs
  have h1 := visibleDerived_svcRun (svcConstruct rv rs) evs h0
  obtain ⟨hx1, hx2, hy1, hy2⟩ := h1
  refine ⟨h0, ⟨hx1, hx2, hy1, hy2⟩, ?_, ?_⟩
  · rw [hx1, hx2]; ring
  · rw [hy1, hy2]; ring

theorem ipp_svcStep (s : DOMServiceState) (e : DomEvent)
    (h : 0 ≤ s.isPointerPressed) : 0 ≤ (svcStep s e).isPointerPressed := by
  cases e <;>
    simp [svcStep, onDocumentKeyDown, onDocumentKeyUp, onWindowBlur, onDocumentPointerDown,
      onDocumentPointerUp, onDocumentPointerMove, onDocumentScroll, onWindowResize,
      refreshScroll, refreshViewport, refreshVisible] <;>
    omega

theorem ipp_svcRun (s : DOMServiceState) (evs : List DomEvent)
    (h : 0 ≤ s.isPointerPressed) : 0 ≤ (svcRun s evs).isPointerPressed := by
  induction evs generalizing s with
  | nil => exact h
  | cons e evs ih => exact ih (svcStep s e) (ipp_svcStep s e h)

theorem ipp_svcConstruct (rv : ViewportReading) (rs : ScrollReading) :
    (svcConstruct rv rs).isPointerPressed = 0 := rfl

/-- C9: over every event sequence from the initial state, isPointerPressed
is never negative, and immediately after processing a pointerup event it
equals 0 (pointerdown increments it, pointerup assigns
Math.min(0, current)). -/
theorem kolos_C9 (rv : ViewportReading) (rs : ScrollReading) (evs : List DomEvent) :
    0 ≤ (svcRun (svcConstruct rv rs) evs).isPointerPressed ∧
    (svcRun (svcConstruct rv rs) (evs ++ [DomEvent.pointerUp])).isPointerPressed = 0 := by
  have h0 : 0 ≤ (svcConstruct rv rs).isPointerPressed := by rw [ipp_svcConstruct]
  have h1 := ipp_svcRun (svcConstruct rv rs) evs h0
  refine ⟨h1, ?_⟩
  have : svcRun (svcConstruct rv rs) (evs ++ [DomEvent.pointerUp]) =
      svcStep (svcRun (svcConstruct rv rs) evs) DomEvent.pointerUp := by
    simp [svcRun, List.foldl_append]
  rw [this]
  simp [svcStep, onDocumentPointerUp]
  omega

theorem exists_split_concat {α : Type} (P : List α → Prop) (xs : List α) (e a : α) :
    (∃ l1 l2, xs ++ [e] = l1 ++ a :: l2 ∧ P l2) ↔
      ((e = a ∧ P []) ∨ ∃ l1 l2, xs = l1 ++ a :: l2 ∧ P (l2 ++ [e])) := by
  constructor
  · rintro ⟨l1, l2, heq, hP⟩
    rcases List.eq_nil_or_concat l2 with h2 | ⟨l2p, e2, hcat⟩
    · subst h2
      have hlen : xs.length = l1.length := by
        have := congrArg List.length heq
        simpa using this
      obtain ⟨hx, he⟩ := List.append_inj heq hlen
      exact Or.inl ⟨by simpa using he, hP⟩
    · rw [List.concat_eq_append] at hcat
      subst hcat
      have heq2 : xs ++ [e] = (l1 ++ a :: l2p) ++ [e2] := by
        simpa using heq
      have hlen : xs.length = (l1 ++ a :: l2p).length := by
        have := congrArg List.length heq2
        simp only [List.length_append, List.length_cons] at this ⊢
        omega
      obtain ⟨hx, he⟩ := List.append_inj heq2 hlen
      have he2 : e = e2 := by simpa using he
      subst he2
      exact Or.inr ⟨l1, l2p, hx, hP⟩
  · rintro (⟨rfl, hP⟩ | ⟨l1, l2, rfl, hP⟩)
    · exact ⟨xs, [], by simp, hP⟩
    · exact ⟨l1, l2 ++ [e], by simp, hP⟩

theorem noKill_append_singleton (k : Nat) (l : List DomEvent) (e : DomEvent) :
    noKill k (l ++ [e]) ↔ noKill k l ∧ (e ≠ DomEvent.keyUp k ∧ e ≠ DomEvent.windowBlur) := by
  simp only [noKill, List.mem_append, List.mem_singleton]
  constructor
  · intro h
    exact ⟨fun x hx => h x (Or.inl hx), (h e (Or.inr rfl)).1, (h e (Or.inr rfl)).2⟩
  · rintro ⟨h1, h2, h3⟩ x (hx | rfl)
    · exact h1 x hx
    · exact ⟨h2, h3⟩

theorem mem_pressed_svcStep (s : DOMServiceState) (e : DomEvent) (k : Nat) :
    k ∈ (svcStep s e).pressedKeys ↔
      e = DomEvent.keyDown k ∨
        (k ∈ s.pressedKeys ∧ e ≠ DomEvent.keyUp k ∧ e ≠ DomEvent.windowBlur) := by
  cases e with
  | keyDown k2 =>
    by_cases h : k2 ∈ s.pressedKeys
    · simp only [svcStep, onDocumentKeyDown, if_pos h]
      constructor
      · intro hk
        exact Or.inr ⟨hk, by simp, by simp⟩
      · rintro (hkd | ⟨hk, _, _⟩)
        · have : k2 = k := by simpa using hkd
          subst this; exact h
        · exact hk
    · simp only [svcStep, onDocumentKeyDown, if_neg h, List.mem_append, List.mem_singleton]
      constructor
      · rintro (hk | rfl)
        · exact Or.inr ⟨hk, by simp, by simp⟩
        · exact Or.inl rfl
      · rintro (hkd | ⟨hk, _, _⟩)
        · have : k2 = k := by simpa using hkd
          exact Or.inr this.symm
        · exact Or.inl hk
  | keyUp k2 =>
    simp only [svcStep, onDocumentKeyUp, List.mem_filter, decide_eq_true_eq]
    constructor
    · rintro ⟨hk, hne⟩
      exact Or.inr ⟨hk, by simpa using Ne.symm hne, by simp⟩
    · rintro (hkd | ⟨hk, hne, _⟩)
      · simp at hkd
      · refine ⟨hk, ?_⟩
        intro hkk
        subst hkk
        exact hne rfl
  | windowBlur => simp [svcStep, onWindowBlur]
  | pointerDown => simp [svcStep, onDocumentPointerDown]
  | pointerUp => simp [svcStep, onDocumentPointerUp]
  | pointerMove x y => simp [svcStep, onDocumentPointerMove]
  | documentScroll r => simp [svcStep, onDocumentScroll, refreshScroll, refreshVisible]
  | windowResize r => simp [svcStep, onWindowResize, refreshViewport, refreshVisible]

/-- C5: starting from the constructed service, isKeyPressed(k) is true
after an event sequence exactly when the sequence contains a keydown for k
not followed by a keyup for k or a window blur (a blur clears the whole
pressed-keys set). -/
theorem kolos_C5 (rv : ViewportReading) (rs : ScrollReading) (evs : List DomEvent) (k : Nat) :
    isKeyPressed k (svcRun (svcConstruct rv rs) evs) = true ↔ pressedSpec k evs := by
  induction evs using List.reverseRecOn with
  | nil =>
    simp only [svcRun, List.foldl_nil, isKeyPressed, pressedSpec, decide_eq_true_eq]
    constructor
    · intro h
      have : (svcConstruct rv rs).pressedKeys = [] := rfl
      rw [this] at h
      simp at h
    · rintro ⟨l1, l2, h, _⟩
      exact absurd h.symm (by simp)
  | append_singleton xs e ih =>
    have hrun : svcRun (svcConstruct rv rs) (xs ++ [e]) =
        svcStep (svcRun (svcConstruct rv rs) xs) e := by
      simp [svcRun, List.foldl_append]
    rw [hrun]
    simp only [isKeyPressed, decide_eq_true_eq] at ih ⊢
    rw [mem_pressed_svcStep]
    unfold pressedSpec
    rw [exists_split_concat (noKill k) xs e (DomEvent.keyDown k)]
    have hnil : noKill k ([] : List DomEvent) := by simp [noKill]
    constructor
    · rintro (rfl | ⟨hk, hne⟩)
      · exact Or.inl ⟨rfl, hnil⟩
      · rcases ih.mp hk with ⟨l1, l2, rfl, hnk⟩
        exact Or.inr ⟨l1, l2, rfl, (noKill_append_singleton k l2 e).mpr ⟨hnk, hne⟩⟩
    · rintro (⟨rfl, _⟩ | ⟨l1, l2, rfl, hnk⟩)
      · exact Or.inl rfl
      · obtain ⟨hnk2, hne⟩ := (noKill_append_singleton k l2 e).mp hnk
        exact Or.inr ⟨ih.mpr ⟨l1, l2, rfl, hnk2⟩, hne⟩



/- ===== Association-list lemmas ===== -/

theorem assocFind_append {α β : Type} [DecidableEq α] (l1 l2 : List (α × β)) (k : α) :
    assocFind (l1 ++ l2) k =
      (match assocFind l1 k with
       | some v => some v
       | none => assocFind l2 k) := by
  induction l1 with
  | nil => simp [assocFind]
  | cons p rest ih =>
    by_cases hp : p.1 = k
    · simp only [List.cons_append, assocFind, if_pos hp]
    · simp only [List.cons_append, assocFind, if_neg hp]
      exact ih

theorem assocFind_eq_none_of_not_any {α β : Type} [DecidableEq α] (l : List (α × β)) (k : α)
    (h : ¬ l.any (fun p => decide (p.1 = k))) : assocFind l k = none := by
  induction l with
  | nil => rfl
  | cons p rest ih =>
    simp only [List.any_cons, Bool.or_eq_true, decide_eq_true_eq] at h
    push_neg at h
    simp only [assocFind, if_neg h.1]
    exact ih (by simpa using h.2)

theorem any_of_assocFind_some {α β : Type} [DecidableEq α] (l : List (α × β)) (k : α) (v : β)
    (h : assocFind l k = some v) : l.any (fun p => decide (p.1 = k)) = true := by
  induction l with
  | nil => simp [assocFind] at h
  | cons p rest ih =>
    by_cases hp : p.1 = k
    · simp [List.any_cons, hp]
    · simp only [assocFind, if_neg hp] at h
      simp [List.any_cons, hp, ih h]

theorem assocFind_map_set_of_any {α β : Type} [DecidableEq α] (l : List (α × β)) (k : α)
    (v : β) (h : l.any (fun p => decide (p.1 = k)) = true) :
    assocFind (l.map (fun p => if p.1 = k then (k, v) else p)) k = some v := by
  induction l with
  | nil => simp at h
  | cons p rest ih =>
    simp only [List.map_cons]
    by_cases hp : p.1 = k
    · rw [if_pos hp]
      simp [assocFind]
    · rw [if_neg hp]
      simp only [assocFind, if_neg hp]
      apply ih
      simp only [List.any_cons, Bool.or_eq_true, decide_eq_true_eq] at h
      rcases h with h | h
      · exact absurd h hp
      · exact h

theorem assocFind_map_set_ne {α β : Type} [DecidableEq α] (l : List (α × β)) (k : α) (v : β)
    (k' : α) (h : k' ≠ k) :
    assocFind (l.map (fun p => if p.1 = k then (k, v) else p)) k' = assocFind l k' := by
  induction l with
  | nil => simp
  | cons p rest ih =>
    simp only [List.map_cons]
    by_cases hp : p.1 = k
    · rw [if_pos hp]
      have hpk : ¬ p.1 = k' := by rw [hp]; exact Ne.symm h
      simp only [assocFind, if_neg (Ne.symm h), if_neg hpk]
      exact ih
    · rw [if_neg hp]
      by_cases hp2 : p.1 = k'
      · simp only [assocFind, if_pos hp2]
      · simp only [assocFind, if_neg hp2]
        exact ih

theorem assocFind_assocSet_self {α β : Type} [DecidableEq α] (l : List (α × β)) (k : α) (v : β) :
    assocFind (assocSet l k v) k = some v := by
  unfold assocSet
  by_cases h : l.any (fun p => decide (p.1 = k))
  · rw [if_pos h, assocFind_map_set_of_any l k v h]
  · rw [if_neg h, assocFind_append, assocFind_eq_none_of_not_any l k h]
    simp [assocFind]

theorem assocFind_assocSet_ne {α β : Type} [DecidableEq α] (l : List (α × β)) (k : α) (v : β)
    (k' : α) (h : k' ≠ k) : assocFind (assocSet l k v) k' = assocFind l k' := by
  unfold assocSet
  by_cases hany : l.any (fun p => decide (p.1 = k))
  · rw [if_pos hany, assocFind_map_set_ne l k v k' h]
  · rw [if_neg hany, assocFind_append]
    cases hf : assocFind l k' with
    | some w => simp
    | none => simp [assocFind, Ne.symm h]

theorem assocFind_assocRemove_self {α β : Type} [DecidableEq α] (l : List (α × β)) (k : α) :
    assocFind (assocRemove l k) k = none := by
  induction l with
  | nil => rfl
  | cons p rest ih =>
    by_cases hp : p.1 = k
    · simpa [assocRemove, List.filter_cons, hp] using ih
    · simp only [assocRemove, List.filter_cons] at ih ⊢
      rw [if_pos (by simpa using hp)]
      simp only [assocFind, if_neg hp]
      exact ih

theorem assocFind_assocRemove_ne {α β : Type} [DecidableEq α] (l : List (α × β)) (k k' : α)
    (h : k' ≠ k) : assocFind (assocRemove l k) k' = assocFind l k' := by
  induction l with
  | nil => rfl
  | cons p rest ih =>
    simp only [assocRemove, List.filter_cons] at ih ⊢
    by_cases hp : p.1 = k
    · have hp2 : ¬ p.1 = k' := by rw [hp]; exact Ne.symm h
      rw [if_neg (by simpa using hp)]
      simp only [assocFind, if_neg hp2]
      exact ih
    · rw [if_pos (by simpa using hp)]
      by_cases hp2 : p.1 = k'
      · simp only [assocFind, if_pos hp2]
      · simp only [assocFind, if_neg hp2]
        exact ih

theorem map_set_id_of_not_any {α β : Type} [DecidableEq α] (l : List (α × β)) (k : α) (v : β)
    (h : ¬ l.any (fun p => decide (p.1 = k))) :
    l.map (fun p => if p.1 = k then (k, v) else p) = l := by
  induction l with
  | nil => rfl
  | cons p rest ih =>
    simp only [List.any_cons, Bool.or_eq_true, decide_eq_true_eq] at h
    push_neg at h
    simp only [List.map_cons, if_neg h.1]
    rw [ih (by simpa using h.2)]

theorem assocSet_assocSet_same {α β : Type} [DecidableEq α] (l : List (α × β)) (k : α) (v w : β) :
    assocSet (assocSet l k v) k w = assocSet l k w := by
  have hany2 : (assocSet l k v).any (fun p => decide (p.1 = k)) = true :=
    any_of_assocFind_some _ _ _ (assocFind_assocSet_self l k v)
  by_cases h : l.any (fun p => decide (p.1 = k))
  · have hset : assocSet l k v = l.map (fun p => if p.1 = k then (k, v) else p) := by
      rw [assocSet, if_pos h]
    rw [assocSet, if_pos hany2, hset, List.map_map]
    rw [assocSet, if_pos h]
    congr 1
    funext p
    by_cases hp : p.1 = k <;> simp [Function.comp, hp]
  · have hset : assocSet l k v = l ++ [(k, v)] := by rw [assocSet, if_neg h]
    rw [assocSet, if_pos hany2, hset, List.map_append, map_set_id_of_not_any l k w h]
    rw [assocSet, if_neg h]
    simp

theorem assocSet_self_of_find_unique {α β : Type} [DecidableEq α] (l : List (α × β)) (k : α)
    (v : β) (h : assocFind l k = some v)
    (hu : l.countP (fun p => decide (p.1 = k)) ≤ 1) : assocSet l k v = l := by
  rw [assocSet, if_pos (any_of_assocFind_some l k v h)]
  induction l with
  | nil => simp [assocFind] at h
  | cons p rest ih =>
    by_cases hp : p.1 = k
    · simp only [assocFind, if_pos hp] at h
      have hv : v = p.2 := by injection h with h2; exact h2.symm
      subst hv
      rw [List.countP_cons] at hu
      rw [if_pos (by simpa using hp)] at hu
      have hcount : rest.countP (fun p => decide (p.1 = k)) = 0 := by omega
      have hnone : ¬ (rest.any fun p => decide (p.1 = k)) = true := by
        rw [List.any_eq_true]
        rw [List.countP_eq_zero] at hcount
        rintro ⟨x, hx, hpx⟩
        exact absurd hpx (by simpa using hcount x hx)
      have hpp : ((k, p.2) : α × β) = p := by
        have hsplit : p = (p.1, p.2) := rfl
        rw [hsplit, hp]
      simp only [List.map_cons, if_pos hp]
      rw [map_set_id_of_not_any rest k p.2 hnone, hpp]
    · simp only [assocFind, if_neg hp] at h
      rw [List.countP_cons] at hu
      have hu2 : rest.countP (fun p => decide (p.1 = k)) ≤ 1 := by omega
      simp only [List.map_cons, if_neg hp]
      rw [ih h hu2]

theorem assocRemove_map_set {α β : Type} [DecidableEq α] (l : List (α × β)) (k : α) (v : β) :
    assocRemove (l.map (fun p => if p.1 = k then (k, v) else p)) k = assocRemove l k := by
  induction l with
  | nil => rfl
  | cons p rest ih =>
    by_cases hp : p.1 = k
    · simpa [assocRemove, List.filter_cons, hp] using ih
    · simpa [assocRemove, List.filter_cons, hp] using ih

theorem assocRemove_assocSet_self {α β : Type} [DecidableEq α] (l : List (α × β)) (k : α)
    (v : β) : assocRemove (assocSet l k v) k = assocRemove l k := by
  by_cases h : l.any (fun p => decide (p.1 = k))
  · rw [assocSet, if_pos h]
    exact assocRemove_map_set l k v
  · rw [assocSet, if_neg h, assocRemove, List.filter_append]
    simp [assocRemove]

theorem assocRemove_self_of_find_none {α β : Type} [DecidableEq α] (l : List (α × β)) (k : α)
    (h : assocFind l k = none) : assocRemove l k = l := by
  induction l with
  | nil => rfl
  | cons p rest ih =>
    by_cases hp : p.1 = k
    · simp [assocFind, hp] at h
    · simp only [assocFind, if_neg hp] at h
      rw [assocRemove, List.filter_cons, if_pos (show (decide (p.1 ≠ k)) = true by simpa using hp)]
      exact congrArg (fun t => p :: t) (ih h)

/- ===== C8: convertToFormData ===== -/

theorem formDataAppend_eq (fd : List (String × JSVal)) (kv : String × JSVal) :
    formDataAppend fd kv = fd ++ formEntries kv := by
  rcases kv with ⟨key, val⟩
  cases val <;>
    simp [formDataAppend, formEntries, typeofV, isTruthy, isFile, isArray, isObject, jsNeNull,
      arrayElems, objectProps]
  case bool b => cases b <;> simp

theorem foldl_formDataAppend (data : List (String × JSVal)) (fd : List (String × JSVal)) :
    data.foldl formDataAppend fd = fd ++ (data.map formEntries).flatten := by
  induction data generalizing fd with
  | nil => simp
  | cons kv rest ih =>
    rw [List.foldl_cons, formDataAppend_eq, ih]
    simp

/-- C8: convertToFormData flattens a flat object exactly as the claim
enumerates: every string, number, truthy boolean or File value is appended
under its key; each element of an array value under key ++ "[]" in array
order; each property of a nested object value under
key ++ "[" ++ innerKey ++ "]"; values that are false, null or undefined
contribute no entry. -/
theorem kolos_C8 (data : List (String × JSVal)) :
    convertToFormData data = (data.map formEntries).flatten := by
  rw [convertToFormData, foldl_formDataAppend]
  simp

/- ===== C6: getSelectedTextElement ===== -/

/-- C6 counterexample: on a host where window.getSelection() throws and
document.selection is also absent, the catch block itself raises, so
getSelectedTextElement propagates an exception instead of returning a node
or undefined. -/
theorem kolos_C6_counterexample : getSelectedTextElement cSelHost = Except.error () := rfl

/-- C6 (amended): when window.getSelection() throws, the exception is
caught inside getSelectedTextElement, which falls back to the legacy
document.selection API and never re-raises the original exception; the
function returns a node or undefined exactly when the try-block read
succeeds or the legacy fallback itself does not throw. -/
theorem kolos_C6_thm (h : SelectionHost) :
    (∀ e : Unit, h.anchorNodeResult = Except.error e →
      getSelectedTextElement h = h.legacyParentElement) ∧
    ((getSelectedTextElement h).isOk =
      (h.anchorNodeResult.isOk || h.legacyParentElement.isOk)) := by
  constructor
  · intro e he
    rw [getSelectedTextElement, he]
  · rcases ha : h.anchorNodeResult with v | v
    · rw [getSelectedTextElement, ha]
      rcases hl : h.legacyParentElement with w | w <;> simp [hl, Except.isOk, Except.toBool]
    · rw [getSelectedTextElement, ha]
      simp [Except.isOk, Except.toBool]

theorem kolos_C6_witness :
    getSelectedTextElement
        { anchorNodeResult := Except.error ()
          parentNode := fun _ => none
          legacyParentElement := Except.ok (some 5) } = Except.ok (some 5) :=
  ((kolos_C6_thm
      { anchorNodeResult := Except.error ()
        parentNode := fun _ => none
        legacyParentElement := Except.ok (some 5) }).1 () rfl).trans rfl

/- ===== C7: parseQueryString ===== -/

theorem parseQueryString_eq_foldl (decode : String → String) (query : String) :
    parseQueryString decode query = (rawPairs decode query).foldl (qsInsert decode) [] := by
  rw [parseQueryString, rawPairs, List.foldl_map]

theorem combineQ_arr (vs : List String) (l : List String) :
    combineQ (some (QVal.arr l)) vs = some (QVal.arr (l ++ vs)) := by
  induction vs generalizing l with
  | nil => simp [combineQ]
  | cons v vs ih =>
    rw [combineQ, ih]
    simp

theorem combineQ_none_eq_qvalOf (vs : List String) : combineQ none vs = qvalOf vs := by
  cases vs with
  | nil => rfl
  | cons v ws =>
    cases ws with
    | nil => rfl
    | cons w ws =>
      show combineQ (some (QVal.str v)) (w :: ws) = qvalOf (v :: w :: ws)
      rw [combineQ, combineQ_arr]
      rfl

theorem qs_fold_lookup (decode : String → String) (ps : List (String × String)) :
    ∀ (qs : List (String × QVal)) (key : String),
      assocFind (ps.foldl (qsInsert decode) qs) key =
        combineQ (assocFind qs key)
          ((ps.filter (fun pr => decide (pr.1 = key))).map (fun pr => decode pr.2)) := by
  induction ps with
  | nil =>
    intro qs key
    simp [combineQ]
  | cons pr rest ih =>
    intro qs key
    rw [List.foldl_cons, ih]
    by_cases hk : pr.1 = key
    · rw [List.filter_cons, if_pos (by simpa using hk)]
      rcases hfind : assocFind qs pr.1 with _ | qv
      · simp only [qsInsert, hfind]
        rw [hk] at hfind ⊢
        rw [assocFind_assocSet_self, hfind]
        simp [combineQ]
      · cases qv with
        | str s =>
          simp only [qsInsert, hfind]
          rw [hk] at hfind ⊢
          rw [assocFind_assocSet_self, hfind]
          simp [combineQ]
        | arr l =>
          simp only [qsInsert, hfind]
          rw [hk] at hfind ⊢
          rw [assocFind_assocSet_self, hfind]
          simp [combineQ, combineQ_arr]
    · rw [List.filter_cons, if_neg (by simpa using hk)]
      have hne : key ≠ pr.1 := fun hh => hk hh.symm
      rcases hfind : assocFind qs pr.1 with _ | qv
      · simp only [qsInsert, hfind]
        rw [assocFind_assocSet_ne _ _ _ _ hne]
      · cases qv with
        | str s =>
          simp only [qsInsert, hfind]
          rw [assocFind_assocSet_ne _ _ _ _ hne]
        | arr l =>
          simp only [qsInsert, hfind]
          rw [assocFind_assocSet_ne _ _ _ _ hne]

/-- C7 counterexample: the code decodes values twice (once when splitting,
once when storing), so for the query "a=%2541" the stored value is "A"
although the decoded value of the raw pair is "%41"; a key occurring once
does not map to its singly-decoded value. -/
theorem kolos_C7_counterexample :
    parseQueryString decodeM "a=%2541" = [("a", QVal.str "A")] ∧
    rawPairs decodeM "a=%2541" = [("a", "%41")] ∧
    QVal.str "A" ≠ QVal.str "%41" := by
  refine ⟨by decide, by decide, by decide⟩

/-- C7 (amended): parseQueryString splits on "&" and "=", and in the
result a key occurring once maps to its twice-decoded value as a string
(decodeURIComponent is applied when the pair is split and again when the
value is stored), a key occurring exactly twice maps to the two-element
array of its twice-decoded values in occurrence order, and every later
occurrence is appended to that array, preserving the order of the pairs. -/
theorem kolos_C7_thm (decode : String → String) (query : String) (key : String) :
    assocFind (parseQueryString decode query) key =
      qvalOf (((rawPairs decode query).filter (fun pr => decide (pr.1 = key))).map
        (fun pr => decode pr.2)) := by
  rw [parseQueryString_eq_foldl, qs_fold_lookup]
  rw [show assocFind ([] : List (String × QVal)) key = none from rfl]
  rw [combineQ_none_eq_qvalOf]

/- ===== PanelSt attribute and projection lemmas ===== -/

@[simp]
theorem getAttr_setAttr_self (s : PanelSt) (k v : String) :
    (s.setAttr k v).getAttr k = some v := by
  simp [PanelSt.setAttr, PanelSt.getAttr, Dom.setAttribute, Dom.getAttribute,
    assocFind_assocSet_self]

@[simp]
theorem getAttr_setAttr_ne (s : PanelSt) (k v k' : String) (h : k' ≠ k) :
    (s.setAttr k v).getAttr k' = s.getAttr k' := by
  simp [PanelSt.setAttr, PanelSt.getAttr, Dom.setAttribute, Dom.getAttribute,
    assocFind_assocSet_ne _ _ _ _ h]

@[simp]
theorem getAttr_removeAttr_self (s : PanelSt) (k : String) :
    (s.removeAttr k).getAttr k = none := by
  simp [PanelSt.removeAttr, PanelSt.getAttr, Dom.removeAttribute, Dom.getAttribute,
    assocFind_assocRemove_self]

@[simp]
theorem getAttr_removeAttr_ne (s : PanelSt) (k k' : String) (h : k' ≠ k) :
    (s.removeAttr k).getAttr k' = s.getAttr k' := by
  simp [PanelSt.removeAttr, PanelSt.getAttr, Dom.removeAttribute, Dom.getAttribute,
    assocFind_assocRemove_ne _ _ _ h]

@[simp]
theorem setAttr_state (s : PanelSt) (k v : String) : (s.setAttr k v).state = s.state := rfl

@[simp]
theorem setAttr_overflowing (s : PanelSt) (k v : String) :
    (s.setAttr k v).overflowing = s.overflowing := rfl

@[simp]
theorem setAttr_listeners (s : PanelSt) (k v : String) :
    (s.setAttr k v).listeners = s.listeners := rfl

@[simp]
theorem setAttr_nodeId (s : PanelSt) (k v : String) : (s.setAttr k v).nodeId = s.nodeId := rfl

@[simp]
theorem setAttr_isDismounted (s : PanelSt) (k v : String) :
    (s.setAttr k v).isDismounted = s.isDismounted := rfl

@[simp]
theorem removeAttr_state (s : PanelSt) (k : String) : (s.removeAttr k).state = s.state := rfl

@[simp]
theorem removeAttr_overflowing (s : PanelSt) (k : String) :
    (s.removeAttr k).overflowing = s.overflowing := rfl

@[simp]
theorem removeAttr_listeners (s : PanelSt) (k : String) :
    (s.removeAttr k).listeners = s.listeners := rfl

@[simp]
theorem removeAttr_nodeId (s : PanelSt) (k : String) : (s.removeAttr k).nodeId = s.nodeId := rfl

@[simp]
theorem removeAttr_isDismounted (s : PanelSt) (k : String) :
    (s.removeAttr k).isDismounted = s.isDismounted := rfl

@[simp]
theorem addListener_state (s : PanelSt) (ns : String) : (addListener s ns).state = s.state := rfl

@[simp]
theorem addListener_getAttr (s : PanelSt) (ns : String) (k : String) :
    (addListener s ns).getAttr k = s.getAttr k := rfl

@[simp]
theorem addListener_overflowing (s : PanelSt) (ns : String) :
    (addListener s ns).overflowing = s.overflowing := rfl

@[simp]
theorem getAttr_withOverflowing (s : PanelSt) (o : Option OverflowRec) (k : String) :
    ({ s with overflowing := o } : PanelSt).getAttr k = s.getAttr k := rfl

@[simp]
theorem overflowing_withOverflowing (s : PanelSt) (o : Option OverflowRec) :
    ({ s with overflowing := o } : PanelSt).overflowing = o := rfl

/- ===== Per-block lemmas for setOverflowingAttributes ===== -/

theorem initOverflowing_getAttr (s : PanelSt) (k : String) :
    (initOverflowing s).getAttr k = s.getAttr k := by
  unfold initOverflowing
  split_ifs <;> rfl

theorem initOverflowing_isSome (s : PanelSt) : (initOverflowing s).overflowing.isSome = true := by
  unfold initOverflowing
  cases h : s.overflowing with
  | none => simp [h]
  | some ov => simp [h]

theorem initOverflowing_state (s : PanelSt) : (initOverflowing s).state = s.state := by
  unfold initOverflowing
  split_ifs <;> rfl

theorem initOverflowing_listeners (s : PanelSt) :
    (initOverflowing s).listeners = s.listeners := by
  unfold initOverflowing
  split_ifs <;> rfl

theorem overflowLeftBlock_xdir (o : OffsetFromVisible) (s : PanelSt)
    (h1 : o.left < 0) (h2 : o.left < o.right) :
    (overflowLeftBlock o s).getAttr "x-direction" = some "right" := by
  unfold overflowLeftBlock
  rw [if_pos h1, if_pos h2]
  simp

theorem overflowLeftBlock_getAttr_ne (o : OffsetFromVisible) (s : PanelSt) (k : String)
    (h1 : k ≠ "overflowing-left") (h2 : k ≠ "x-direction") :
    (overflowLeftBlock o s).getAttr k = s.getAttr k := by
  unfold overflowLeftBlock
  split_ifs <;> simp [h1, h2]

theorem overflowLeftBlock_xdir_of_not (o : OffsetFromVisible) (s : PanelSt)
    (h : ¬ o.left < o.right) :
    (overflowLeftBlock o s).getAttr "x-direction" = s.getAttr "x-direction" := by
  simp only [overflowLeftBlock]
  split_ifs with ha
  · simp
  · rfl

theorem overflowLeftBlock_ov (o : OffsetFromVisible) (s : PanelSt) (h1 : o.left < 0) :
    (overflowLeftBlock o s).overflowing =
      some { s.overflowing.getD {} with left := some o.left } := by
  unfold overflowLeftBlock
  rw [if_pos h1]
  split_ifs <;> simp

theorem overflowRightBlock_xdir (o : OffsetFromVisible) (s : PanelSt)
    (h1 : o.right < 0) (h2 : o.left > o.right) :
    (overflowRightBlock o s).getAttr "x-direction" = some "left" := by
  unfold overflowRightBlock
  rw [if_pos h1, if_pos h2]
  simp

theorem overflowRightBlock_getAttr_ne (o : OffsetFromVisible) (s : PanelSt) (k : String)
    (h1 : k ≠ "overflowing-right") (h2 : k ≠ "x-direction") :
    (overflowRightBlock o s).getAttr k = s.getAttr k := by
  unfold overflowRightBlock
  split_ifs <;> simp [h1, h2]

theorem overflowRightBlock_xdir_of_not (o : OffsetFromVisible) (s : PanelSt)
    (h : ¬ o.left > o.right) :
    (overflowRightBlock o s).getAttr "x-direction" = s.getAttr "x-direction" := by
  simp only [overflowRightBlock]
  split_ifs with ha
  · simp
  · rfl

theorem overflowRightBlock_ov (o : OffsetFromVisible) (s : PanelSt) (h1 : o.right < 0) :
    (overflowRightBlock o s).overflowing =
      some { s.overflowing.getD {} with right := some o.right } := by
  unfold overflowRightBlock
  rw [if_pos h1]
  split_ifs <;> simp

theorem overflowRightBlock_ov_left (o : OffsetFromVisible) (s : PanelSt) :
    ((overflowRightBlock o s).overflowing.getD {}).left = (s.overflowing.getD {}).left := by
  unfold overflowRightBlock
  split_ifs <;> simp

theorem overflowBottomBlock_ydir (o : OffsetFromVisible) (s : PanelSt)
    (h1 : o.bottom < 0) (h2 : o.top > o.bottom) :
    (overflowBottomBlock o s).getAttr "y-direction" = some "top" := by
  unfold overflowBottomBlock
  rw [if_pos h1, if_pos h2]
  simp

theorem overflowBottomBlock_getAttr_ne (o : OffsetFromVisible) (s : PanelSt) (k : String)
    (h1 : k ≠ "overflowing-bottom") (h2 : k ≠ "y-direction") :
    (overflowBottomBlock o s).getAttr k = s.getAttr k := by
  unfold overflowBottomBlock
  split_ifs <;> simp [h1, h2]

theorem overflowBottomBlock_ydir_of_not (o : OffsetFromVisible) (s : PanelSt)
    (h : ¬ o.top > o.bottom) :
    (overflowBottomBlock o s).getAttr "y-direction" = s.getAttr "y-direction" := by
  simp only [overflowBottomBlock]
  split_ifs with ha
  · simp
  · rfl

theorem overflowBottomBlock_ov (o : OffsetFromVisible) (s : PanelSt) (h1 : o.bottom < 0) :
    (overflowBottomBlock o s).overflowing =
      some { s.overflowing.getD {} with bottom := some o.bottom } := by
  unfold overflowBottomBlock
  rw [if_pos h1]
  split_ifs <;> simp

theorem overflowBottomBlock_ov_left (o : OffsetFromVisible) (s : PanelSt) :
    ((overflowBottomBlock o s).overflowing.getD {}).left = (s.overflowing.getD {}).left := by
  unfold overflowBottomBlock
  split_ifs <;> simp

theorem overflowBottomBlock_ov_right (o : OffsetFromVisible) (s : PanelSt) :
    ((overflowBottomBlock o s).overflowing.getD {}).right = (s.overflowing.getD {}).right := by
  unfold overflowBottomBlock
  split_ifs <;> simp

theorem overflowTopBlock_ydir (o : OffsetFromVisible) (s : PanelSt)
    (h1 : o.top < 0) (h2 : o.top < o.bottom) :
    (overflowTopBlock o s).getAttr "y-direction" = some "bottom" := by
  unfold overflowTopBlock
  rw [if_pos h1, if_pos h2]
  simp

theorem overflowTopBlock_getAttr_ne (o : OffsetFromVisible) (s : PanelSt) (k : String)
    (h1 : k ≠ "overflowing-top") (h2 : k ≠ "y-direction") :
    (overflowTopBlock o s).getAttr k = s.getAttr k := by
  unfold overflowTopBlock
  split_ifs <;> simp [h1, h2]

theorem overflowTopBlock_ydir_of_not (o : OffsetFromVisible) (s : PanelSt)
    (h : ¬ o.top < o.bottom) :
    (overflowTopBlock o s).getAttr "y-direction" = s.getAttr "y-direction" := by
  simp only [overflowTopBlock]
  split_ifs with ha
  · simp
  · rfl

theorem overflowTopBlock_ov (o : OffsetFromVisible) (s : PanelSt) (h1 : o.top < 0) :
    (overflowTopBlock o s).overflowing =
      some { s.overflowing.getD {} with top := some o.top } := by
  unfold overflowTopBlock
  rw [if_pos h1]
  split_ifs <;> simp

theorem overflowTopBlock_ov_left (o : OffsetFromVisible) (s : PanelSt) :
    ((overflowTopBlock o s).overflowing.getD {}).left = (s.overflowing.getD {}).left := by
  unfold overflowTopBlock
  split_ifs <;> simp

theorem overflowTopBlock_ov_right (o : OffsetFromVisible) (s : PanelSt) :
    ((overflowTopBlock o s).overflowing.getD {}).right = (s.overflowing.getD {}).right := by
  unfold overflowTopBlock
  split_ifs <;> simp

theorem overflowTopBlock_ov_bottom (o : OffsetFromVisible) (s : PanelSt) :
    ((overflowTopBlock o s).overflowing.getD {}).bottom = (s.overflowing.getD {}).bottom := by
  unfold overflowTopBlock
  split_ifs <;> simp

theorem overflowLeftBlock_isSome (o : OffsetFromVisible) (s : PanelSt)
    (h : s.overflowing.isSome = true) : (overflowLeftBlock o s).overflowing.isSome = true := by
  unfold overflowLeftBlock
  split_ifs <;> simp [h]

theorem overflowRightBlock_isSome (o : OffsetFromVisible) (s : PanelSt)
    (h : s.overflowing.isSome = true) : (overflowRightBlock o s).overflowing.isSome = true := by
  unfold overflowRightBlock
  split_ifs <;> simp [h]

theorem overflowBottomBlock_isSome (o : OffsetFromVisible) (s : PanelSt)
    (h : s.overflowing.isSome = true) : (overflowBottomBlock o s).overflowing.isSome = true := by
  unfold overflowBottomBlock
  split_ifs <;> simp [h]

theorem overflowTopBlock_isSome (o : OffsetFromVisible) (s : PanelSt)
    (h : s.overflowing.isSome = true) : (overflowTopBlock o s).overflowing.isSome = true := by
  unfold overflowTopBlock
  split_ifs <;> simp [h]

theorem overflowLeftBlock_state (o : OffsetFromVisible) (s : PanelSt) :
    (overflowLeftBlock o s).state = s.state := by
  unfold overflowLeftBlock
  split_ifs <;> rfl

theorem overflowRightBlock_state (o : OffsetFromVisible) (s : PanelSt) :
    (overflowRightBlock o s).state = s.state := by
  unfold overflowRightBlock
  split_ifs <;> rfl

theorem overflowBottomBlock_state (o : OffsetFromVisible) (s : PanelSt) :
    (overflowBottomBlock o s).state = s.state := by
  unfold overflowBottomBlock
  split_ifs <;> rfl

theorem overflowTopBlock_state (o : OffsetFromVisible) (s : PanelSt) :
    (overflowTopBlock o s).state = s.state := by
  unfold overflowTopBlock
  split_ifs <;> rfl

theorem overflowLeftBlock_listeners (o : OffsetFromVisible) (s : PanelSt) :
    (overflowLeftBlock o s).listeners = s.listeners := by
  unfold overflowLeftBlock
  split_ifs <;> rfl

theorem overflowRightBlock_listeners (o : OffsetFromVisible) (s : PanelSt) :
    (overflowRightBlock o s).listeners = s.listeners := by
  unfold overflowRightBlock
  split_ifs <;> rfl

theorem overflowBottomBlock_listeners (o : OffsetFromVisible) (s : PanelSt) :
    (overflowBottomBlock o s).listeners = s.listeners := by
  unfold overflowBottomBlock
  split_ifs <;> rfl

theorem overflowTopBlock_listeners (o : OffsetFromVisible) (s : PanelSt) :
    (overflowTopBlock o s).listeners = s.listeners := by
  unfold overflowTopBlock
  split_ifs <;> rfl

theorem setOverflowing_state (oa : OverflowArgs) (s : PanelSt) :
    (setOverflowingAttributes oa s).state = s.state := by
  unfold setOverflowingAttributes
  rw [setAttr_state, overflowTopBlock_state, overflowBottomBlock_state,
    overflowRightBlock_state, overflowLeftBlock_state, initOverflowing_state]

theorem setOverflowing_listeners (oa : OverflowArgs) (s : PanelSt) :
    (setOverflowingAttributes oa s).listeners = s.listeners := by
  unfold setOverflowingAttributes
  rw [setAttr_listeners, overflowTopBlock_listeners, overflowBottomBlock_listeners,
    overflowRightBlock_listeners, overflowLeftBlock_listeners, initOverflowing_listeners]

theorem setOverflowing_getAttr_other (oa : OverflowArgs) (s : PanelSt) (k : String)
    (h1 : k ≠ "overflowing-left") (h2 : k ≠ "overflowing-right")
    (h3 : k ≠ "overflowing-bottom") (h4 : k ≠ "overflowing-top")
    (h5 : k ≠ "x-direction") (h6 : k ≠ "y-direction")
    (h7 : k ≠ "overflowing-calculated") :
    (setOverflowingAttributes oa s).getAttr k = s.getAttr k := by
  unfold setOverflowingAttributes
  rw [getAttr_setAttr_ne _ _ _ _ h7, overflowTopBlock_getAttr_ne _ _ _ h4 h6,
    overflowBottomBlock_getAttr_ne _ _ _ h3 h6, overflowRightBlock_getAttr_ne _ _ _ h2 h5,
    overflowLeftBlock_getAttr_ne _ _ _ h1 h5, initOverflowing_getAttr]

theorem overflowLeftBlock_attr (o : OffsetFromVisible) (s : PanelSt) (h1 : o.left < 0) :
    (overflowLeftBlock o s).getAttr "overflowing-left" = some "" := by
  simp only [overflowLeftBlock]
  rw [if_pos h1]
  split_ifs <;> simp

theorem overflowRightBlock_attr (o : OffsetFromVisible) (s : PanelSt) (h1 : o.right < 0) :
    (overflowRightBlock o s).getAttr "overflowing-right" = some "" := by
  simp only [overflowRightBlock]
  rw [if_pos h1]
  split_ifs <;> simp

theorem overflowBottomBlock_attr (o : OffsetFromVisible) (s : PanelSt) (h1 : o.bottom < 0) :
    (overflowBottomBlock o s).getAttr "overflowing-bottom" = some "" := by
  simp only [overflowBottomBlock]
  rw [if_pos h1]
  split_ifs <;> simp

theorem overflowTopBlock_attr (o : OffsetFromVisible) (s : PanelSt) (h1 : o.top < 0) :
    (overflowTopBlock o s).getAttr "overflowing-top" = some "" := by
  simp only [overflowTopBlock]
  rw [if_pos h1]
  split_ifs <;> simp

/-- C2: the overflow pass flips the panel toward the roomier side.  With
offset = getOffsetFromVisible(viewport, rect, width, height): when
left < 0 and left < right the panel gets x-direction="right"; when
right < 0 and left > right it gets x-direction="left"; when bottom < 0 and
top > bottom it gets y-direction="top"; when top < 0 and top < bottom it
gets y-direction="bottom"; each negative side gets an empty
overflowing-<side> attribute and its offset recorded in this.overflowing;
and overflowing-calculated is always set to "true". -/
theorem kolos_C2 (oa : OverflowArgs) (s : PanelSt) :
    ((getOffsetFromVisible oa.viewport oa.rect oa.width oa.height).left < 0 →
      (getOffsetFromVisible oa.viewport oa.rect oa.width oa.height).left <
          (getOffsetFromVisible oa.viewport oa.rect oa.width oa.height).right →
        (setOverflowingAttributes oa s).getAttr "x-direction" = some "right") ∧
    ((getOffsetFromVisible oa.viewport oa.rect oa.width oa.height).right < 0 →
      (getOffsetFromVisible oa.viewport oa.rect oa.width oa.height).left >
          (getOffsetFromVisible oa.viewport oa.rect oa.width oa.height).right →
        (setOverflowingAttributes oa s).getAttr "x-direction" = some "left") ∧
    ((getOffsetFromVisible oa.viewport oa.rect oa.width oa.height).bottom < 0 →
      (getOffsetFromVisible oa.viewport oa.rect oa.width oa.height).top >
          (getOffsetFromVisible oa.viewport oa.rect oa.width oa.height).bottom →
        (setOverflowingAttributes oa s).getAttr "y-direction" = some "top") ∧
    ((getOffsetFromVisible oa.viewport oa.rect oa.width oa.height).top < 0 →
      (getOffsetFromVisible oa.viewport oa.rect oa.width oa.height).top <
          (getOffsetFromVisible oa.viewport oa.rect oa.width oa.height).bottom →
        (setOverflowingAttributes oa s).getAttr "y-direction" = some "bottom") ∧
    ((getOffsetFromVisible oa.viewport oa.rect oa.width oa.height).left < 0 →
      (setOverflowingAttributes oa s).getAttr "overflowing-left" = some "" ∧
      ((setOverflowingAttributes oa s).overflowing.getD {}).left =
        some (getOffsetFromVisible oa.viewport oa.rect oa.width oa.height).left) ∧
    ((getOffsetFromVisible oa.viewport oa.rect oa.width oa.height).right < 0 →
      (setOverflowingAttributes oa s).getAttr "overflowing-right" = some "" ∧
      ((setOverflowingAttributes oa s).overflowing.getD {}).right =
        some (getOffsetFromVisible oa.viewport oa.rect oa.width oa.height).right) ∧
    ((getOffsetFromVisible oa.viewport oa.rect oa.width oa.height).bottom < 0 →
      (setOverflowingAttributes oa s).getAttr "overflowing-bottom" = some "" ∧
      ((setOverflowingAttributes oa s).overflowing.getD {}).bottom =
        some (getOffsetFromVisible oa.viewport oa.rect oa.width oa.height).bottom) ∧
    ((getOffsetFromVisible oa.viewport oa.rect oa.width oa.height).top < 0 →
      (setOverflowingAttributes oa s).getAttr "overflowing-top" = some "" ∧
      ((setOverflowingAttributes oa s).overflowing.getD {}).top =
        some (getOffsetFromVisible oa.viewport oa.rect oa.width oa.height).top) ∧
    (setOverflowingAttributes oa s).overflowing.isSome = true ∧
    (setOverflowingAttributes oa s).getAttr "overflowing-calculated" = some "true" := by
  refine ⟨?_, ?_, ?_, ?_, ?_, ?_, ?_, ?_, ?_, ?_⟩
  · intro h1 h2
    unfold setOverflowingAttributes
    rw [getAttr_setAttr_ne _ _ _ _ (by decide),
      overflowTopBlock_getAttr_ne _ _ _ (by decide) (by decide),
      overflowBottomBlock_getAttr_ne _ _ _ (by decide) (by decide),
      overflowRightBlock_xdir_of_not _ _ (lt_asymm h2),
      overflowLeftBlock_xdir _ _ h1 h2]
  · intro h1 h2
    unfold setOverflowingAttributes
    rw [getAttr_setAttr_ne _ _ _ _ (by decide),
      overflowTopBlock_getAttr_ne _ _ _ (by decide) (by decide),
      overflowBottomBlock_getAttr_ne _ _ _ (by decide) (by decide),
      overflowRightBlock_xdir _ _ h1 h2]
  · intro h1 h2
    unfold setOverflowingAttributes
    rw [getAttr_setAttr_ne _ _ _ _ (by decide),
      overflowTopBlock_ydir_of_not _ _ (lt_asymm h2),
      overflowBottomBlock_ydir _ _ h1 h2]
  · intro h1 h2
    unfold setOverflowingAttributes
    rw [getAttr_setAttr_ne _ _ _ _ (by decide),
      overflowTopBlock_ydir _ _ h1 h2]
  · intro h1
    unfold setOverflowingAttributes
    constructor
    · rw [getAttr_setAttr_ne _ _ _ _ (by decide),
        overflowTopBlock_getAttr_ne _ _ _ (by decide) (by decide),
        overflowBottomBlock_getAttr_ne _ _ _ (by decide) (by decide),
        overflowRightBlock_getAttr_ne _ _ _ (by decide) (by decide),
        overflowLeftBlock_attr _ _ h1]
    · rw [setAttr_overflowing, overflowTopBlock_ov_left, overflowBottomBlock_ov_left,
        overflowRightBlock_ov_left, overflowLeftBlock_ov _ _ h1]
      simp
  · intro h1
    unfold setOverflowingAttributes
    constructor
    · rw [getAttr_setAttr_ne _ _ _ _ (by decide),
        overflowTopBlock_getAttr_ne _ _ _ (by decide) (by decide),
        overflowBottomBlock_getAttr_ne _ _ _ (by decide) (by decide),
        overflowRightBlock_attr _ _ h1]
    · rw [setAttr_overflowing, overflowTopBlock_ov_right, overflowBottomBlock_ov_right,
        overflowRightBlock_ov _ _ h1]
      simp
  · intro h1
    unfold setOverflowingAttributes
    constructor
    · rw [getAttr_setAttr_ne _ _ _ _ (by decide),
        overflowTopBlock_getAttr_ne _ _ _ (by decide) (by decide),
        overflowBottomBlock_attr _ _ h1]
    · rw [setAttr_overflowing, overflowTopBlock_ov_bottom, overflowBottomBlock_ov _ _ h1]
      simp
  · intro h1
    unfold setOverflowingAttributes
    constructor
    · rw [getAttr_setAttr_ne _ _ _ _ (by decide), overflowTopBlock_attr _ _ h1]
    · rw [setAttr_overflowing, overflowTopBlock_ov _ _ h1]
      simp
  · unfold setOverflowingAttributes
    rw [setAttr_overflowing]
    exact overflowTopBlock_isSome _ _ (overflowBottomBlock_isSome _ _
      (overflowRightBlock_isSome _ _ (overflowLeftBlock_isSome _ _ (initOverflowing_isSome s))))
  · unfold setOverflowingAttributes
    rw [getAttr_setAttr_self]

theorem kolos_C2_witness :
    (getOffsetFromVisible wOA.viewport wOA.rect wOA.width wOA.height).left < 0 ∧
    (getOffsetFromVisible wOA.viewport wOA.rect wOA.width wOA.height).left <
      (getOffsetFromVisible wOA.viewport wOA.rect wOA.width wOA.height).right ∧
    (setOverflowingAttributes wOA wPanel).getAttr "x-direction" = some "right" ∧
    (setOverflowingAttributes wOA wPanel).getAttr "overflowing-left" = some "" ∧
    ((setOverflowingAttributes wOA wPanel).overflowing.getD {}).left =
      some (getOffsetFromVisible wOA.viewport wOA.rect wOA.width wOA.height).left ∧
    (setOverflowingAttributes wOA wPanel).getAttr "overflowing-calculated" = some "true" := by
  have h := kolos_C2 wOA wPanel
  have hL : (getOffsetFromVisible wOA.viewport wOA.rect wOA.width wOA.height).left < 0 := by
    norm_num [wOA, getOffsetFromVisible]
  have hLR : (getOffsetFromVisible wOA.viewport wOA.rect wOA.width wOA.height).left <
      (getOffsetFromVisible wOA.viewport wOA.rect wOA.width wOA.height).right := by
    norm_num [wOA, getOffsetFromVisible]
  exact ⟨hL, hLR, h.1 hL hLR, (h.2.2.2.2.1 hL).1, (h.2.2.2.2.1 hL).2,
    h.2.2.2.2.2.2.2.2.2⟩

/- ===== Dom-level lemmas for tree and style operations ===== -/

@[simp]
theorem getAttribute_setChildren (d : Dom) (p : Nat) (l : List Nat) (n : Nat) (k : String) :
    (d.setChildren p l).getAttribute n k = d.getAttribute n k := rfl

@[simp]
theorem getAttribute_eraseEverywhere (d : Dom) (x n : Nat) (k : String) :
    (d.eraseEverywhere x).getAttribute n k = d.getAttribute n k := rfl

@[simp]
theorem getAttribute_insertAfter (d : Dom) (p a x n : Nat) (k : String) :
    (d.insertAfter p a x).getAttribute n k = d.getAttribute n k := rfl

@[simp]
theorem getAttribute_appendChild (d : Dom) (p x n : Nat) (k : String) :
    (d.appendChild p x).getAttribute n k = d.getAttribute n k := rfl

@[simp]
theorem getAttribute_removeChild (d : Dom) (p x n : Nat) (k : String) :
    (d.removeChild p x).getAttribute n k = d.getAttribute n k := rfl

theorem getAttribute_styleSetProp_ne (d : Dom) (n2 : Nat) (prop val : String) (n : Nat)
    (k : String) (h : k ≠ "style") :
    (styleSetProp d n2 prop val).getAttribute n k = d.getAttribute n k := by
  unfold styleSetProp Dom.setAttribute Dom.getAttribute
  by_cases hn : n = n2
  · simp only [hn, if_pos rfl]
    exact assocFind_assocSet_ne _ _ _ _ h
  · simp only [if_neg hn]

/- ===== dismount lemmas ===== -/

theorem dismount_state (a : DismountArgs) (s : PanelSt) :
    (dismount a s).1.state = s.state := by
  simp only [dismount]
  split <;> rfl

theorem dismount_getAttr_ne (a : DismountArgs) (s : PanelSt) (k : String) (h : k ≠ "style") :
    (dismount a s).1.getAttr k = s.getAttr k := by
  simp only [dismount]
  split <;>
    simp [PanelSt.getAttr, addListener, getAttribute_styleSetProp_ne _ _ _ _ _ _ h]

theorem boundCount_addListener_opening (s : PanelSt) :
    boundCount (addListener s "opening") = boundCount s + 1 := by
  unfold boundCount addListener
  cases hl : s.listeners with
  | none =>
    simp only [hl, Option.getD_none, Option.getD_some]
    rw [show assocFind ([] : List (String × List Bool)) "opening" = none from rfl]
    simp [assocFind_assocSet_self]
  | some ls =>
    simp only [hl, Option.getD_some]
    rw [assocFind_assocSet_self]
    cases hf : assocFind ls "opening" with
    | none => simp [hf]
    | some entry => simp [hf, List.countP_append]

theorem boundCount_addListener_dismounting (s : PanelSt) :
    boundCount (addListener s "dismounting") = boundCount s := by
  unfold boundCount addListener
  cases hl : s.listeners with
  | none =>
    simp only [hl, Option.getD_none, Option.getD_some]
    rw [assocFind_assocSet_ne _ _ _ _ (by decide)]
    rfl
  | some ls =>
    simp only [hl, Option.getD_some]
    rw [assocFind_assocSet_ne _ _ _ _ (by decide)]

@[simp]
theorem boundCount_withDismounted (s : PanelSt) (b : Bool) :
    boundCount { s with isDismounted := b } = boundCount s := rfl

theorem dismount_boundCount (a : DismountArgs) (s : PanelSt) :
    boundCount (dismount a s).1 = boundCount s := by
  simp only [dismount]
  split
  · rfl
  · simp only [boundCount_withDismounted, boundCount_addListener_dismounting]
    rfl

theorem dismount_isDismounted (a : DismountArgs) (s : PanelSt)
    (h : (dismount a s).2 = true) : (dismount a s).1.isDismounted = true := by
  simp only [dismount] at h ⊢
  split at h
  · simp at h
  · rfl

/- ===== mount lemmas ===== -/

theorem removeListeners_state (s : PanelSt) (ns : String) :
    (removeListeners s ns).1.state = s.state := by
  unfold removeListeners
  split <;> (try split) <;> rfl

theorem removeListeners_getAttr (s : PanelSt) (ns : String) (k : String) :
    (removeListeners s ns).1.getAttr k = s.getAttr k := by
  unfold removeListeners
  split <;> (try split) <;> rfl

theorem mountRestoreStyle_state (s : PanelSt) : (mountRestoreStyle s).state = s.state := by
  unfold mountRestoreStyle
  split
  · rfl
  · split <;> rfl

theorem mountRestoreStyle_getAttr_ne (s : PanelSt) (k : String) (h : k ≠ "style") :
    (mountRestoreStyle s).getAttr k = s.getAttr k := by
  unfold mountRestoreStyle
  split
  · rfl
  · split <;> simp [h]

theorem mountRestoreStyle_boundCount (s : PanelSt) :
    boundCount (mountRestoreStyle s) = boundCount s := by
  unfold mountRestoreStyle
  split
  · rfl
  · split <;> rfl

theorem mountAvatarStep_state (s : PanelSt) : (mountAvatarStep s).1.state = s.state := by
  unfold mountAvatarStep
  split
  · split <;> (split <;> rfl)
  · split <;> rfl

theorem mountAvatarStep_getAttr (s : PanelSt) (k : String) :
    (mountAvatarStep s).1.getAttr k = s.getAttr k := by
  unfold mountAvatarStep
  split
  · split <;> (split <;> simp [PanelSt.getAttr])
  · split <;> simp [PanelSt.getAttr]

theorem mountAvatarStep_boundCount (s : PanelSt) :
    boundCount (mountAvatarStep s).1 = boundCount s := by
  unfold mountAvatarStep
  split
  · split <;> (split <;> rfl)
  · split <;> rfl

theorem mountRemoveAvatar_state (s : PanelSt) : (mountRemoveAvatar s).1.state = s.state := by
  unfold mountRemoveAvatar
  split
  · rfl
  · split <;> rfl

theorem mountRemoveAvatar_getAttr (s : PanelSt) (k : String) :
    (mountRemoveAvatar s).1.getAttr k = s.getAttr k := by
  unfold mountRemoveAvatar
  split
  · rfl
  · split <;> simp [PanelSt.getAttr]

theorem mountRemoveAvatar_boundCount (s : PanelSt) :
    boundCount (mountRemoveAvatar s).1 = boundCount s := by
  unfold mountRemoveAvatar
  split
  · rfl
  · split <;> rfl

theorem removeListeners_boundCount_dismounting (s : PanelSt) :
    boundCount (removeListeners s "dismounting").1 = boundCount s := by
  unfold removeListeners
  cases hl : s.listeners with
  | none => simp only [hl]
  | some ls =>
    simp only [hl]
    cases hf : assocFind ls "dismounting" with
    | none => simp only [hf]
    | some entry =>
      simp only [hf]
      unfold boundCount
      simp only [hl]
      rw [assocFind_assocSet_ne _ _ _ _ (by decide)]

theorem mountFinish_state (s : PanelSt) : (mountFinish s).1.state = s.state := by
  unfold mountFinish
  rcases hr : removeListeners s "dismounting" with ⟨s2, b⟩
  have h2 : s2.state = s.state := by
    have := removeListeners_state s "dismounting"
    rw [hr] at this
    exact this
  cases b <;> simpa using h2

theorem mountFinish_getAttr (s : PanelSt) (k : String) :
    (mountFinish s).1.getAttr k = s.getAttr k := by
  unfold mountFinish
  rcases hr : removeListeners s "dismounting" with ⟨s2, b⟩
  have h2 : s2.getAttr k = s.getAttr k := by
    have := removeListeners_getAttr s "dismounting" k
    rw [hr] at this
    exact this
  cases b <;> simpa using h2

theorem mountFinish_boundCount (s : PanelSt) :
    boundCount (mountFinish s).1 = boundCount s := by
  unfold mountFinish
  rcases hr : removeListeners s "dismounting" with ⟨s2, b⟩
  have h2 : boundCount s2 = boundCount s := by
    have := removeListeners_boundCount_dismounting s
    rw [hr] at this
    exact this
  cases b <;> simpa using h2

theorem mount_state (s : PanelSt) : (mount s).1.state = s.state := by
  unfold mount
  rcases ha : mountAvatarStep (mountRestoreStyle s) with ⟨s2, b2⟩
  have h2 : s2.state = s.state := by
    have := mountAvatarStep_state (mountRestoreStyle s)
    rw [ha] at this
    rw [this, mountRestoreStyle_state]
  cases b2 with
  | false => simpa using h2
  | true =>
    simp only []
    rcases hr : mountRemoveAvatar s2 with ⟨s3, b3⟩
    have h3 : s3.state = s2.state := by
      have := mountRemoveAvatar_state s2
      rw [hr] at this
      exact this
    cases b3 with
    | false => simpa using h3.trans h2
    | true =>
      simp only []
      rw [mountFinish_state, h3, h2]

theorem mount_getAttr_ne (s : PanelSt) (k : String) (h : k ≠ "style") :
    (mount s).1.getAttr k = s.getAttr k := by
  unfold mount
  rcases ha : mountAvatarStep (mountRestoreStyle s) with ⟨s2, b2⟩
  have h2 : s2.getAttr k = s.getAttr k := by
    have := mountAvatarStep_getAttr (mountRestoreStyle s) k
    rw [ha] at this
    rw [this, mountRestoreStyle_getAttr_ne _ _ h]
  cases b2 with
  | false => simpa using h2
  | true =>
    simp only []
    rcases hr : mountRemoveAvatar s2 with ⟨s3, b3⟩
    have h3 : s3.getAttr k = s2.getAttr k := by
      have := mountRemoveAvatar_getAttr s2 k
      rw [hr] at this
      exact this
    cases b3 with
    | false => simpa using h3.trans h2
    | true =>
      simp only []
      rw [mountFinish_getAttr, h3, h2]

theorem mount_boundCount (s : PanelSt) : boundCount (mount s).1 = boundCount s := by
  unfold mount
  rcases ha : mountAvatarStep (mountRestoreStyle s) with ⟨s2, b2⟩
  have h2 : boundCount s2 = boundCount s := by
    have := mountAvatarStep_boundCount (mountRestoreStyle s)
    rw [ha] at this
    rw [this, mountRestoreStyle_boundCount]
  cases b2 with
  | false => simpa using h2
  | true =>
    simp only []
    rcases hr : mountRemoveAvatar s2 with ⟨s3, b3⟩
    have h3 : boundCount s3 = boundCount s2 := by
      have := mountRemoveAvatar_boundCount s2
      rw [hr] at this
      exact this
    cases b3 with
    | false => simpa using h3.trans h2
    | true =>
      simp only []
      rw [mountFinish_boundCount, h3, h2]

/- ===== removeOverflowingAttributes and closePanel lemmas ===== -/

theorem removeOverflowing_state (s : PanelSt) :
    (removeOverflowingAttributes s).state = s.state := by
  simp only [removeOverflowingAttributes]
  split
  · rfl
  · split_ifs <;> rfl

theorem removeOverflowing_boundCount (s : PanelSt) :
    boundCount (removeOverflowingAttributes s) = boundCount s := by
  simp only [removeOverflowingAttributes]
  split
  · rfl
  · split_ifs <;> rfl

theorem removeOverflowing_getAttr_ne (s : PanelSt) (k : String)
    (h1 : k ≠ "x-direction") (h2 : k ≠ "y-direction") (h3 : k ≠ "overflowing-left")
    (h4 : k ≠ "overflowing-right") (h5 : k ≠ "overflowing-bottom")
    (h6 : k ≠ "overflowing-top") (h7 : k ≠ "overflowing-calculated") :
    (removeOverflowingAttributes s).getAttr k = s.getAttr k := by
  simp only [removeOverflowingAttributes]
  split
  · simp [h1, h2, h7]
  · split_ifs <;> simp [h1, h2, h3, h4, h5, h6, h7]

theorem closePanel_state (s : PanelSt) :
    (closePanel s).1.state = PanelComponentStates.Closed := by
  simp only [closePanel]
  split_ifs with h hdm
  · exact h
  · split
    · rename_i s2 heq
      have hm := mount_state (({ s with state := PanelComponentStates.Closed } :
        PanelSt).removeAttr "open")
      rw [heq] at hm
      exact hm
    · rename_i s2 heq
      have hs2 : s2.state = PanelComponentStates.Closed := by
        have hm := mount_state (({ s with state := PanelComponentStates.Closed } :
          PanelSt).removeAttr "open")
        rw [heq] at hm
        exact hm
      rw [removeListeners_state, removeOverflowing_state, hs2]
  · show (removeListeners (removeOverflowingAttributes _) "opening").1.state = _
    rw [removeListeners_state, removeOverflowing_state]
    rfl

theorem closePanel_closed (s : PanelSt) (h : s.state = PanelComponentStates.Closed) :
    closePanel s = (s, true) := by
  simp only [closePanel]
  rw [if_pos h]

theorem closePanel_open_attr (s : PanelSt) :
    (closePanel s).1.getAttr "open" =
      (if s.state = PanelComponentStates.Closed then s.getAttr "open" else none) := by
  simp only [closePanel]
  split_ifs with h hdm
  · rfl
  · split
    · rename_i s2 heq
      have hm := mount_getAttr_ne (({ s with state := PanelComponentStates.Closed } :
        PanelSt).removeAttr "open") "open" (by decide)
      rw [heq] at hm
      rw [show ((s2, false).1) = s2 from rfl, hm]
      simp
    · rename_i s2 heq
      have hs2 : s2.getAttr "open" = none := by
        have hm := mount_getAttr_ne (({ s with state := PanelComponentStates.Closed } :
          PanelSt).removeAttr "open") "open" (by decide)
        rw [heq] at hm
        simpa using hm
      rw [removeListeners_getAttr,
        removeOverflowing_getAttr_ne _ _ (by decide) (by decide) (by decide) (by decide)
          (by decide) (by decide) (by decide), hs2]
  · show (removeListeners (removeOverflowingAttributes _) "opening").1.getAttr "open" = _
    rw [removeListeners_getAttr,
      removeOverflowing_getAttr_ne _ _ (by decide) (by decide) (by decide) (by decide)
        (by decide) (by decide) (by decide)]
    simp

theorem removeListeners_opening_bound (s : PanelSt)
    (hc : (removeListeners s "opening").2 = true) :
    boundCount (removeListeners s "opening").1 = 0 := by
  unfold removeListeners at hc ⊢
  cases hl : s.listeners with
  | none =>
    rw [hl] at hc
    simp at hc
  | some ls =>
    simp only [hl] at hc ⊢
    cases hf : assocFind ls "opening" with
    | none =>
      simp only [hf] at hc
      simp at hc
    | some entry =>
      simp only [hf]
      unfold boundCount
      simp only []
      rw [assocFind_assocSet_self]
      simp [List.countP_eq_zero]

theorem closePanel_bound (s : PanelSt) (h : s.state = PanelComponentStates.Open)
    (hc : (closePanel s).2 = true) : boundCount (closePanel s).1 = 0 := by
  simp only [closePanel] at hc ⊢
  split_ifs at hc ⊢ with hcl hdm
  · rw [h] at hcl
    exact absurd hcl (by decide)
  · split at hc
    · simp at hc
    · exact removeListeners_opening_bound _ hc
  · exact removeListeners_opening_bound _ hc

/- ===== openPanel lemmas ===== -/

theorem boundCount_congr_listeners (s1 s2 : PanelSt) (h : s1.listeners = s2.listeners) :
    boundCount s1 = boundCount s2 := by
  unfold boundCount
  rw [h]

theorem setOverflowing_boundCount (oa : OverflowArgs) (s : PanelSt) :
    boundCount (setOverflowingAttributes oa s) = boundCount s :=
  boundCount_congr_listeners _ _ (setOverflowing_listeners oa s)

theorem openPanel_open (da : DismountArgs) (oa : OverflowArgs) (s : PanelSt)
    (h : s.state = PanelComponentStates.Open) : openPanel da oa s = (s, true) := by
  simp only [openPanel]
  rw [if_pos h]

theorem openPanel_props (da : DismountArgs) (oa : OverflowArgs) (s : PanelSt)
    (h : s.state = PanelComponentStates.Closed) (hc : (openPanel da oa s).2 = true) :
    (openPanel da oa s).1.state = PanelComponentStates.Open ∧
    (openPanel da oa s).1.getAttr "open" = some "true" ∧
    1 ≤ boundCount (openPanel da oa s).1 := by
  have hno : ¬ s.state = PanelComponentStates.Open := by
    rw [h]
    decide
  simp only [openPanel] at hc ⊢
  rw [if_neg hno] at hc ⊢
  split at hc
  · simp at hc
  · refine ⟨?_, ?_, ?_⟩
    · rw [addListener_state, setOverflowing_state, setAttr_state]
    · rw [addListener_getAttr,
        setOverflowing_getAttr_other _ _ _ (by decide) (by decide) (by decide) (by decide)
          (by decide) (by decide) (by decide), getAttr_setAttr_self]
    · rw [boundCount_addListener_opening]
      omega

/-- C1: on a closed panel a completed open() leaves the panel Open with
the attribute open="true"; on an open panel close() leaves it Closed with
the open attribute removed; open() on an open panel and close() on a
closed panel change nothing. -/
theorem kolos_C1 (da : DismountArgs) (oa : OverflowArgs) (s : PanelSt) :
    (s.state = PanelComponentStates.Closed → (openPanel da oa s).2 = true →
      (openPanel da oa s).1.state = PanelComponentStates.Open ∧
      (openPanel da oa s).1.getAttr "open" = some "true") ∧
    (s.state = PanelComponentStates.Open →
      (closePanel s).1.state = PanelComponentStates.Closed ∧
      (closePanel s).1.getAttr "open" = none) ∧
    (s.state = PanelComponentStates.Open → openPanel da oa s = (s, true)) ∧
    (s.state = PanelComponentStates.Closed → closePanel s = (s, true)) := by
  refine ⟨?_, ?_, ?_, ?_⟩
  · intro h hc
    exact ⟨(openPanel_props da oa s h hc).1, (openPanel_props da oa s h hc).2.1⟩
  · intro h
    refine ⟨closePanel_state s, ?_⟩
    rw [closePanel_open_attr, if_neg (by rw [h]; decide)]
  · exact openPanel_open da oa s
  · exact closePanel_closed s

theorem kolos_C1_witness :
    wPanel.state = PanelComponentStates.Closed ∧
    (openPanel wArgs wOA wPanel).2 = true ∧
    (openPanel wArgs wOA wPanel).1.state = PanelComponentStates.Open ∧
    (openPanel wArgs wOA wPanel).1.getAttr "open" = some "true" ∧
    (closePanel (openPanel wArgs wOA wPanel).1).1.state = PanelComponentStates.Closed ∧
    (closePanel (openPanel wArgs wOA wPanel).1).1.getAttr "open" = none := by
  have hc : (openPanel wArgs wOA wPanel).2 = true := rfl
  have hopen := (kolos_C1 wArgs wOA wPanel).1 rfl hc
  have hclose := (kolos_C1 wArgs wOA (openPanel wArgs wOA wPanel).1).2.1 hopen.1
  exact ⟨rfl, hc, hopen.1, hopen.2, hclose.1, hclose.2⟩

/- ===== docPointerUp lemmas ===== -/

theorem pointerUpHandler_closed (b : Bool) (s : PanelSt)
    (h : s.state = PanelComponentStates.Closed) : pointerUpHandler b s = s := by
  unfold pointerUpHandler
  split_ifs
  · rfl
  · rw [closePanel_closed s h]

theorem foldl_handler_closed (b : Bool) (l : List Nat) (s : PanelSt)
    (h : s.state = PanelComponentStates.Closed) :
    l.foldl (fun st _ => pointerUpHandler b st) s = s := by
  induction l with
  | nil => rfl
  | cons n rest ih =>
    rw [List.foldl_cons, pointerUpHandler_closed b s h]
    exact ih

theorem docPointerUp_closed (b : Bool) (s : PanelSt)
    (h : s.state = PanelComponentStates.Closed) : docPointerUp b s = s :=
  foldl_handler_closed b _ s h

theorem docPointerUp_inner (s : PanelSt) : docPointerUp true s = s := by
  unfold docPointerUp
  have : ∀ l : List Nat, l.foldl (fun st _ => pointerUpHandler true st) s = s := by
    intro l
    induction l with
    | nil => rfl
    | cons n rest ih =>
      rw [List.foldl_cons]
      exact ih
  exact this _

theorem docPointerUp_outer (s : PanelSt) (hb : 1 ≤ boundCount s) :
    docPointerUp false s = (closePanel s).1 := by
  unfold docPointerUp
  obtain ⟨m, hm⟩ : ∃ m, boundCount s = m + 1 :=
    ⟨boundCount s - 1, by omega⟩
  rw [hm, List.range_succ_eq_map, List.foldl_cons]
  rw [show pointerUpHandler false s = (closePanel s).1 from rfl]
  exact foldl_handler_closed false _ _ (closePanel_state s)

theorem foldl_docPointerUp_closed (evs : List Bool) (s : PanelSt)
    (h : s.state = PanelComponentStates.Closed) :
    evs.foldl (fun st b => docPointerUp b st) s = s := by
  induction evs with
  | nil => rfl
  | cons b rest ih =>
    rw [List.foldl_cons, docPointerUp_closed b s h]
    exact ih

/-- C4: after open() completes on a closed panel the panel is dismissible:
over any sequence of document pointerup dispatches the panel stays Open
exactly while every dispatched pointerup has its target inside the panel
node, an outside pointerup runs close() and leaves the panel Closed, and a
completed close() unbinds the opening (dismissal) listeners. -/
theorem kolos_C4 (da : DismountArgs) (oa : OverflowArgs) (s : PanelSt)
    (h : s.state = PanelComponentStates.Closed) (hc : (openPanel da oa s).2 = true) :
    (∀ evs : List Bool,
      ((evs.foldl (fun st b => docPointerUp b st) (openPanel da oa s).1).state =
          PanelComponentStates.Open ↔ evs.all (fun b => b) = true)) ∧
    (docPointerUp false (openPanel da oa s).1 = (closePanel (openPanel da oa s).1).1 ∧
      (closePanel (openPanel da oa s).1).1.state = PanelComponentStates.Closed) ∧
    ((closePanel (openPanel da oa s).1).2 = true →
      boundCount (closePanel (openPanel da oa s).1).1 = 0) := by
  obtain ⟨hst, _, hbnd⟩ := openPanel_props da oa s h hc
  have key : ∀ evs : List Bool, ∀ st : PanelSt,
      st.state = PanelComponentStates.Open → 1 ≤ boundCount st →
      ((evs.foldl (fun st b => docPointerUp b st) st).state = PanelComponentStates.Open ↔
        evs.all (fun b => b) = true) := by
    intro evs
    induction evs with
    | nil =>
      intro st h1 _
      simp [h1]
    | cons b rest ih =>
      intro st h1 h2
      cases b with
      | true =>
        rw [List.foldl_cons, docPointerUp_inner]
        rw [show (true :: rest).all (fun b => b) = rest.all (fun b => b) by simp]
        exact ih st h1 h2
      | false =>
        rw [List.foldl_cons, docPointerUp_outer st h2,
          foldl_docPointerUp_closed rest _ (closePanel_state st)]
        rw [closePanel_state st]
        simp
  refine ⟨fun evs => key evs _ hst hbnd, ⟨docPointerUp_outer _ hbnd, closePanel_state _⟩, ?_⟩
  exact closePanel_bound _ hst

theorem kolos_C4_witness :
    wPanel.state = PanelComponentStates.Closed ∧
    (openPanel wArgs wOA wPanel).2 = true ∧
    (([false].foldl (fun st b => docPointerUp b st) (openPanel wArgs wOA wPanel).1).state =
        PanelComponentStates.Open ↔ [false].all (fun b => b) = true) ∧
    (([true, true].foldl (fun st b => docPointerUp b st) (openPanel wArgs wOA wPanel).1).state =
        PanelComponentStates.Open ↔ [true, true].all (fun b => b) = true) ∧
    ((closePanel (openPanel wArgs wOA wPanel).1).2 = true →
      boundCount (closePanel (openPanel wArgs wOA wPanel).1).1 = 0) := by
  have h4 := kolos_C4 wArgs wOA wPanel rfl rfl
  exact ⟨rfl, rfl, h4.1 [false], h4.1 [true, true], h4.2.2⟩

/- ===== List and find? helpers for the DOM tree ===== -/

theorem insertAfterL_of_not_mem_left (l1 l2 : List Nat) (n x : Nat) (h : n ∉ l1) :
    insertAfterL (l1 ++ n :: l2) n x = l1 ++ n :: x :: l2 := by
  induction l1 with
  | nil => simp [insertAfterL]
  | cons a rest ih =>
    have ha : a ≠ n := fun hh => h (by simp [hh])
    simp only [List.cons_append, insertAfterL, if_neg ha]
    exact congrArg (fun t => a :: t) (ih (fun hh => h (List.mem_cons_of_mem a hh)))

theorem find?_eq_some_of_unique (l : List Nat) (p : Nat → Bool) (x : Nat)
    (hx : x ∈ l) (hpx : p x = true) (huniq : ∀ q, p q = true → q = x) :
    l.find? p = some x := by
  induction l with
  | nil => simp at hx
  | cons a rest ih =>
    cases hpa : p a with
    | true =>
      rw [List.find?_cons_of_pos _ hpa]
      rw [huniq a hpa]
    | false =>
      rw [List.find?_cons_of_neg _ (by simp [hpa])]
      have hax : x ≠ a := by
        intro hh
        rw [hh] at hpx
        rw [hpx] at hpa
        cases hpa
      exact ih (by rcases List.mem_cons.mp hx with h | h; exact absurd h hax; exact h)

theorem containsFuel_of_chain (d : Dom) : ∀ (c : List Nat) (x : Nat) (f : Nat),
    IsAncChain d x c → c.length + 1 ≤ f → containsFuel d docElementId f x = true := by
  intro c
  induction c with
  | nil =>
    intro x f hc hf
    obtain ⟨f2, hf2⟩ : ∃ f2, f = f2 + 1 := ⟨f - 1, by omega⟩
    subst hf2
    simp only [IsAncChain] at hc
    simp [containsFuel, hc]
  | cons y ys ih =>
    intro x f hc hf
    obtain ⟨f2, hf2⟩ : ∃ f2, f = f2 + 1 := ⟨f - 1, by omega⟩
    subst hf2
    simp only [IsAncChain] at hc
    simp only [containsFuel]
    split_ifs with hroot
    · rfl
    · rw [hc.1]
      exact ih y f2 hc.2 (by simp at hf; omega)

theorem IsAncChain_congr (d d2 : Dom) : ∀ (c : List Nat) (x : Nat),
    (∀ z, z = x ∨ z ∈ c → d2.parentOf z = d.parentOf z) →
    IsAncChain d x c → IsAncChain d2 x c := by
  intro c
  induction c with
  | nil =>
    intro x _ hc
    exact hc
  | cons y ys ih =>
    intro x hcong hc
    simp only [IsAncChain] at hc ⊢
    refine ⟨?_, ?_⟩
    · rw [hcong x (Or.inl rfl)]
      exact hc.1
    · exact ih y (fun z hz => hcong z (Or.inr (List.mem_cons.mpr hz))) hc.2

theorem find?_congr_pred (l : List Nat) (p q : Nat → Bool) (h : ∀ x ∈ l, p x = q x) :
    l.find? p = l.find? q := by
  induction l with
  | nil => rfl
  | cons a rest ih =>
    have ha := h a (by simp)
    cases hpa : p a with
    | true =>
      rw [List.find?_cons_of_pos _ hpa, List.find?_cons_of_pos _ (by rw [← ha]; exact hpa)]
    | false =>
      rw [List.find?_cons_of_neg _ (by simp [hpa]), List.find?_cons_of_neg _
        (by simp [← ha, hpa])]
      exact ih (fun x hx => h x (by simp [hx]))

/- ===== Dom projection lemmas ===== -/

@[simp]
theorem parentOf_setAttribute (d : Dom) (m : Nat) (k v : String) (x : Nat) :
    (d.setAttribute m k v).parentOf x = d.parentOf x := rfl

@[simp]
theorem parentOf_removeAttribute (d : Dom) (m : Nat) (k : String) (x : Nat) :
    (d.removeAttribute m k).parentOf x = d.parentOf x := rfl

@[simp]
theorem parentOf_styleSetProp (d : Dom) (m : Nat) (pr v : String) (x : Nat) :
    (styleSetProp d m pr v).parentOf x = d.parentOf x := rfl

@[simp]
theorem children_setAttribute (d : Dom) (m : Nat) (k v : String) :
    (d.setAttribute m k v).children = d.children := rfl

@[simp]
theorem children_removeAttribute (d : Dom) (m : Nat) (k : String) :
    (d.removeAttribute m k).children = d.children := rfl

@[simp]
theorem children_styleSetProp (d : Dom) (m : Nat) (pr v : String) :
    (styleSetProp d m pr v).children = d.children := rfl

@[simp]
theorem nodes_setAttribute (d : Dom) (m : Nat) (k v : String) :
    (d.setAttribute m k v).nodes = d.nodes := rfl

@[simp]
theorem nodes_removeAttribute (d : Dom) (m : Nat) (k : String) :
    (d.removeAttribute m k).nodes = d.nodes := rfl

@[simp]
theorem nodes_styleSetProp (d : Dom) (m : Nat) (pr v : String) :
    (styleSetProp d m pr v).nodes = d.nodes := rfl

@[simp]
theorem nodes_insertAfter (d : Dom) (p a x : Nat) : (d.insertAfter p a x).nodes = d.nodes := rfl

@[simp]
theorem nodes_appendChild (d : Dom) (p x : Nat) : (d.appendChild p x).nodes = d.nodes := rfl

@[simp]
theorem nodes_removeChild (d : Dom) (p x : Nat) : (d.removeChild p x).nodes = d.nodes := rfl

@[simp]
theorem attrs_insertAfter (d : Dom) (p a x : Nat) : (d.insertAfter p a x).attrs = d.attrs := rfl

@[simp]
theorem attrs_appendChild (d : Dom) (p x : Nat) : (d.appendChild p x).attrs = d.attrs := rfl

@[simp]
theorem attrs_removeChild (d : Dom) (p x : Nat) : (d.removeChild p x).attrs = d.attrs := rfl

theorem children_insertAfter (d : Dom) (p a x q : Nat) :
    (d.insertAfter p a x).children q =
      if q = p then insertAfterL ((d.children p).erase x) a x else (d.children q).erase x := rfl

theorem children_appendChild (d : Dom) (p x q : Nat) :
    (d.appendChild p x).children q =
      if q = p then (d.children p).erase x ++ [x] else (d.children q).erase x := rfl

theorem children_removeChild (d : Dom) (p x q : Nat) :
    (d.removeChild p x).children q =
      if q = p then (d.children p).erase x else d.children q := rfl

theorem attrs_styleSetProp_self (d : Dom) (n : Nat) (pr v : String) :
    (styleSetProp d n pr v).attrs n =
      assocSet (d.attrs n) "style" (styleAssign (d.getAttribute n "style") pr v) := by
  simp [styleSetProp, Dom.setAttribute]

theorem attrs_styleSetProp_other (d : Dom) (m : Nat) (pr v : String) (n : Nat) (h : n ≠ m) :
    (styleSetProp d m pr v).attrs n = d.attrs n := by
  simp [styleSetProp, Dom.setAttribute, h]

/- ===== dismount reduction lemmas ===== -/

theorem dismount_flag_of_parent (a : DismountArgs) (s : PanelSt) (p : Nat)
    (hfind : s.dom.parentOf s.nodeId = some p) : (dismount a s).2 = true := by
  simp only [dismount, parentOf_styleSetProp, hfind]

theorem dismount_children_red (a : DismountArgs) (s : PanelSt) (p : Nat)
    (hfind : s.dom.parentOf s.nodeId = some p) :
    (dismount a s).1.dom.children =
      ((s.dom.insertAfter p s.nodeId a.avatar).appendChild bodyId s.nodeId).children := by
  simp only [dismount, parentOf_styleSetProp, hfind]
  rfl

theorem dismount_nodes_red (a : DismountArgs) (s : PanelSt) (p : Nat)
    (hfind : s.dom.parentOf s.nodeId = some p) :
    (dismount a s).1.dom.nodes = s.dom.nodes := by
  simp only [dismount, parentOf_styleSetProp, hfind]
  rfl

theorem dismount_nodeId_red (a : DismountArgs) (s : PanelSt) :
    (dismount a s).1.nodeId = s.nodeId := by
  simp only [dismount]
  split <;> rfl

theorem dismount_avatarId_red (a : DismountArgs) (s : PanelSt) :
    (dismount a s).1.avatarId = some a.avatar := by
  simp only [dismount]
  split <;> rfl

theorem dismount_originalStyle_red (a : DismountArgs) (s : PanelSt) :
    (dismount a s).1.originalStyle = some (s.getAttr "style") := by
  simp only [dismount]
  split <;> rfl

theorem dismount_removeListeners_flag (a : DismountArgs) (s : PanelSt) (p : Nat)
    (hfind : s.dom.parentOf s.nodeId = some p) :
    (removeListeners (dismount a s).1 "dismounting").2 = true := by
  simp only [dismount, parentOf_styleSetProp, hfind]
  unfold removeListeners addListener
  simp [assocFind_assocSet_self]

theorem removeListeners_flag_congr (st st2 : PanelSt) (ns : String)
    (h : st.listeners = st2.listeners) :
    (removeListeners st ns).2 = (removeListeners st2 ns).2 := by
  unfold removeListeners
  rw [h]
  cases hls : st2.listeners with
  | none => simp only [hls]
  | some ls =>
    simp only [hls]
    cases hf : assocFind ls ns with
    | none => simp only [hf]
    | some e => simp only [hf]

theorem removeListeners_dom (st : PanelSt) (ns : String) :
    (removeListeners st ns).1.dom = st.dom := by
  unfold removeListeners
  split
  · rfl
  · split <;> rfl

theorem removeListeners_nodeId (st : PanelSt) (ns : String) :
    (removeListeners st ns).1.nodeId = st.nodeId := by
  unfold removeListeners
  split
  · rfl
  · split <;> rfl

theorem dismount_attrs_node (a : DismountArgs) (s : PanelSt) (hav : s.nodeId ≠ a.avatar) :
    ∃ v, (dismount a s).1.dom.attrs s.nodeId = assocSet (s.dom.attrs s.nodeId) "style" v := by
  simp only [dismount]
  split <;>
    (simp only [addListener, attrs_insertAfter, attrs_appendChild, attrs_styleSetProp_self,
       assocSet_assocSet_same, attrs_styleSetProp_other _ _ _ _ _ hav]
     exact ⟨_, rfl⟩)

theorem dismount_children_form (a : DismountArgs) (s : PanelSt) (p : Nat) (l1 l2 : List Nat)
    (hfind : s.dom.parentOf s.nodeId = some p)
    (hpar : s.dom.children p = l1 ++ s.nodeId :: l2)
    (hn1 : s.nodeId ∉ l1)
    (hOnly : ∀ q, q ≠ p → s.nodeId ∉ s.dom.children q)
    (hAv : ∀ q, a.avatar ∉ s.dom.children q) :
    ∀ q, (dismount a s).1.dom.children q =
      (if q = bodyId then
        ((if p = bodyId then l1 ++ a.avatar :: l2 else s.dom.children bodyId) ++ [s.nodeId])
      else if q = p then l1 ++ a.avatar :: l2
      else s.dom.children q) := by
  intro q
  rw [congrFun (dismount_children_red a s p hfind) q, children_appendChild]
  by_cases hqb : q = bodyId
  · subst hqb
    rw [if_pos rfl, if_pos rfl, children_insertAfter]
    by_cases hpb : p = bodyId
    · rw [if_pos hpb.symm, if_pos hpb,
        List.erase_of_not_mem (hAv p), hpar,
        insertAfterL_of_not_mem_left _ _ _ _ hn1,
        List.erase_append_right _ hn1, List.erase_cons_head]
    · rw [if_neg (fun hh => hpb hh.symm), if_neg hpb,
        List.erase_of_not_mem (hAv bodyId),
        List.erase_of_not_mem (hOnly bodyId (fun hh => hpb hh.symm))]
  · rw [if_neg hqb, if_neg hqb, children_insertAfter]
    by_cases hqp : q = p
    · subst hqp
      rw [if_pos rfl, if_pos rfl,
        List.erase_of_not_mem (hAv q), hpar,
        insertAfterL_of_not_mem_left _ _ _ _ hn1,
        List.erase_append_right _ hn1, List.erase_cons_head]
    · rw [if_neg hqp, if_neg hqp,
        List.erase_of_not_mem (hAv q),
        List.erase_of_not_mem (hOnly q hqp)]

theorem mountRestoreStyle_dom_children (s : PanelSt) :
    (mountRestoreStyle s).dom.children = s.dom.children := by
  unfold mountRestoreStyle
  split
  · rfl
  · split <;> rfl

theorem mountRestoreStyle_dom_nodes (s : PanelSt) :
    (mountRestoreStyle s).dom.nodes = s.dom.nodes := by
  unfold mountRestoreStyle
  split
  · rfl
  · split <;> rfl

theorem mountRestoreStyle_avatarId (s : PanelSt) :
    (mountRestoreStyle s).avatarId = s.avatarId := by
  unfold mountRestoreStyle
  split
  · rfl
  · split <;> rfl

theorem mountRestoreStyle_nodeId (s : PanelSt) :
    (mountRestoreStyle s).nodeId = s.nodeId := by
  unfold mountRestoreStyle
  split
  · rfl
  · split <;> rfl

theorem mountRestoreStyle_listeners (s : PanelSt) :
    (mountRestoreStyle s).listeners = s.listeners := by
  unfold mountRestoreStyle
  split
  · rfl
  · split <;> rfl

theorem parentOf_congr (d d2 : Dom) (hc : d2.children = d.children) (hn : d2.nodes = d.nodes)
    (x : Nat) : d2.parentOf x = d.parentOf x := by
  unfold Dom.parentOf
  rw [hc, hn]

theorem containsFuel_congr (d d2 : Dom) (root : Nat) (hc : d2.children = d.children)
    (hn : d2.nodes = d.nodes) : ∀ (f x : Nat), containsFuel d2 root f x = containsFuel d root f x := by
  intro f
  induction f with
  | zero => intro x; rfl
  | succ f ih =>
    intro x
    simp only [containsFuel]
    rw [parentOf_congr d d2 hc hn]
    cases hp : d.parentOf x with
    | none => rfl
    | some q =>
      simp only []
      split_ifs with hr
      · rfl
      · exact ih q

theorem parentOf_after_dismount (a : DismountArgs) (s : PanelSt) (p : Nat) (l1 l2 : List Nat)
    (hfind : s.dom.parentOf s.nodeId = some p)
    (hpar : s.dom.children p = l1 ++ s.nodeId :: l2)
    (hn1 : s.nodeId ∉ l1)
    (hOnly : ∀ q, q ≠ p → s.nodeId ∉ s.dom.children q)
    (hAv : ∀ q, a.avatar ∉ s.dom.children q)
    (z : Nat) (hzn : z ≠ s.nodeId) (hzav : z ≠ a.avatar) :
    (dismount a s).1.dom.parentOf z = s.dom.parentOf z := by
  unfold Dom.parentOf
  rw [dismount_nodes_red a s p hfind]
  apply find?_congr_pred
  intro x _
  have hform := dismount_children_form a s p l1 l2 hfind hpar hn1 hOnly hAv x
  rw [hform]
  by_cases hxb : x = bodyId
  · rw [if_pos hxb]
    by_cases hpb : p = bodyId
    · rw [if_pos hpb]
      subst hxb
      rw [← hpb, hpar]
      simp [hzn, hzav]
    · rw [if_neg hpb]
      subst hxb
      simp [hzn]
  · rw [if_neg hxb]
    by_cases hxp : x = p
    · rw [if_pos hxp, hxp, hpar]
      simp [hzn, hzav]
    · rw [if_neg hxp]


/- Reduction lemmas for the mount pipeline under success hypotheses. -/

theorem mountAvatarStep_red (st : PanelSt) (av pp : Nat)
    (h1 : st.avatarId = some av) (h2 : st.dom.containsNode docElementId av = true)
    (h3 : st.dom.parentOf av = some pp) :
    mountAvatarStep st = ({ st with dom := st.dom.insertAfter pp av st.nodeId }, true) := by
  simp only [mountAvatarStep, h1]
  rw [if_pos h2]
  simp only [h3]

theorem mountRemoveAvatar_red (st : PanelSt) (av pp : Nat)
    (h1 : st.avatarId = some av) (h3 : st.dom.parentOf av = some pp) :
    mountRemoveAvatar st = ({ st with dom := st.dom.removeChild pp av }, true) := by
  simp only [mountRemoveAvatar, h1, h3]

theorem mountFinish_red (st t : PanelSt) (h : removeListeners st "dismounting" = (t, true)) :
    mountFinish st = ({ t with avatarId := none, originalParent := none, originalStyle := none, isDismounted := false }, true) := by
  simp only [mountFinish, h]

theorem mount_assemble (st r1 r2 r3 : PanelSt)
    (h1 : mountAvatarStep (mountRestoreStyle st) = (r1, true))
    (h2 : mountRemoveAvatar r1 = (r2, true))
    (h3 : mountFinish r2 = (r3, true)) :
    mount st = (r3, true) := by
  simp only [mount, h1, h2, h3]

/-- C3 (amended): for a panel node with a parent that is attached to the
document, dismount() succeeds, puts the avatar in the node's original slot
in its original parent and appends the node to document.body; a subsequent
mount() succeeds, restores the node's original style attribute, puts the
node back into the avatar's slot and removes the avatar, so the document
tree is exactly as before.  The side conditions express that the input is
a well-formed tree: the node occurs once, under a single parent, the
avatar is fresh, and the parent climbs to documentElement through a chain
avoiding node and avatar. -/
theorem kolos_C3_thm
    (s : PanelSt) (a : DismountArgs) (p : Nat) (l1 l2 c : List Nat)
    (hpar : s.dom.children p = l1 ++ s.nodeId :: l2)
    (hn1 : s.nodeId ∉ l1) (hn2 : s.nodeId ∉ l2)
    (hOnly : ∀ q, q ≠ p → s.nodeId ∉ s.dom.children q)
    (hAv : ∀ q, a.avatar ∉ s.dom.children q)
    (hnp : s.nodeId ≠ p) (hnav : s.nodeId ≠ a.avatar) (havp : a.avatar ≠ p)
    (havb : a.avatar ≠ bodyId)
    (hpn : p ∈ s.dom.nodes)
    (hchain : IsAncChain s.dom p c)
    (hcn : s.nodeId ∉ c) (hcav : a.avatar ∉ c)
    (hfuel : c.length + 2 ≤ s.dom.nodes.length + 1)
    (hu : (s.dom.attrs s.nodeId).countP (fun pr => decide (pr.1 = "style")) ≤ 1) :
    (dismount a s).2 = true ∧
    (dismount a s).1.dom.children p =
      (if p = bodyId then (l1 ++ a.avatar :: l2) ++ [s.nodeId] else l1 ++ a.avatar :: l2) ∧
    (dismount a s).1.dom.children bodyId =
      ((if p = bodyId then l1 ++ a.avatar :: l2 else s.dom.children bodyId) ++ [s.nodeId]) ∧
    (mount (dismount a s).1).2 = true ∧
    (∀ q, (mount (dismount a s).1).1.dom.children q = s.dom.children q) ∧
    (mount (dismount a s).1).1.dom.attrs s.nodeId = s.dom.attrs s.nodeId ∧
    (∀ q, a.avatar ∉ (mount (dismount a s).1).1.dom.children q) ∧
    (mount (dismount a s).1).1.isDismounted = false := by
  have hn_mem : s.nodeId ∈ s.dom.children p := by
    rw [hpar]
    simp
  have hfind : s.dom.parentOf s.nodeId = some p := by
    apply find?_eq_some_of_unique _ _ _ hpn (by simp [hn_mem])
    intro q hq
    by_contra hqp
    exact hOnly q hqp (by simpa using hq)
  have hform := dismount_children_form a s p l1 l2 hfind hpar hn1 hOnly hAv
  have hflag := dismount_flag_of_parent a s p hfind
  have hnavs : a.avatar ≠ s.nodeId := fun hh => hnav hh.symm
  -- the avatar is a child of exactly p after dismount
  have hpav : (dismount a s).1.dom.parentOf a.avatar = some p := by
    unfold Dom.parentOf
    rw [dismount_nodes_red a s p hfind]
    apply find?_eq_some_of_unique _ _ _ hpn
    · rw [hform p]
      by_cases hpb : p = bodyId
      · rw [if_pos hpb, if_pos hpb]
        simp
      · rw [if_neg hpb, if_pos rfl]
        simp
    · intro q hq
      rw [hform q] at hq
      by_cases hqb : q = bodyId
      · rw [if_pos hqb] at hq
        by_cases hpb : p = bodyId
        · rw [if_pos hpb] at hq
          rw [hqb, hpb]
        · rw [if_neg hpb] at hq
          simp [havb, hAv bodyId] at hq
          exact absurd hq hnavs
      · rw [if_neg hqb] at hq
        by_cases hqp : q = p
        · exact hqp
        · rw [if_neg hqp] at hq
          exact absurd (by simpa using hq) (hAv q)
  -- the parent chain survives dismount
  have hchain2 : IsAncChain (dismount a s).1.dom p c := by
    apply IsAncChain_congr s.dom _ c p _ hchain
    intro z hz
    rcases hz with hz | hz
    · rw [hz]
      exact parentOf_after_dismount a s p l1 l2 hfind hpar hn1 hOnly hAv p
        (fun hh => hnp hh.symm) (fun hh => havp hh.symm)
    · exact parentOf_after_dismount a s p l1 l2 hfind hpar hn1 hOnly hAv z
        (fun hh => hcn (hh ▸ hz)) (fun hh => hcav (hh ▸ hz))
  have hchav : IsAncChain (dismount a s).1.dom a.avatar (p :: c) := ⟨hpav, hchain2⟩
  have hcont1 : containsFuel (dismount a s).1.dom docElementId
      ((dismount a s).1.dom.nodes.length + 1) a.avatar = true := by
    apply containsFuel_of_chain _ (p :: c) _ _ hchav
    rw [dismount_nodes_red a s p hfind]
    simpa using hfuel
  -- mountRestoreStyle stage
  have hm0ch : (mountRestoreStyle (dismount a s).1).dom.children =
      (dismount a s).1.dom.children := mountRestoreStyle_dom_children _
  have hm0nodes : (mountRestoreStyle (dismount a s).1).dom.nodes =
      (dismount a s).1.dom.nodes := mountRestoreStyle_dom_nodes _
  have hm0nid : (mountRestoreStyle (dismount a s).1).nodeId = s.nodeId := by
    rw [mountRestoreStyle_nodeId, dismount_nodeId_red]
  have hm0av : (mountRestoreStyle (dismount a s).1).avatarId = some a.avatar := by
    rw [mountRestoreStyle_avatarId, dismount_avatarId_red]
  have hm0cont : (mountRestoreStyle (dismount a s).1).dom.containsNode
      docElementId a.avatar = true := by
    unfold Dom.containsNode
    rw [containsFuel_congr _ _ _ hm0ch hm0nodes, hm0nodes]
    exact hcont1
  have hm0pav : (mountRestoreStyle (dismount a s).1).dom.parentOf a.avatar = some p := by
    rw [parentOf_congr _ _ hm0ch hm0nodes]
    exact hpav
  -- the avatar step succeeds and moves the node after the avatar
  have hAvStep : mountAvatarStep (mountRestoreStyle (dismount a s).1) =
      ({ mountRestoreStyle (dismount a s).1 with
          dom := (mountRestoreStyle (dismount a s).1).dom.insertAfter p a.avatar
            (mountRestoreStyle (dismount a s).1).nodeId }, true) := by
    unfold mountAvatarStep
    simp only [hm0av, hm0cont, if_true, hm0pav]
  -- children after the avatar step
  have hch3 : ∀ q, ((mountRestoreStyle (dismount a s).1).dom.insertAfter p a.avatar
      (mountRestoreStyle (dismount a s).1).nodeId).children q =
      (if q = p then l1 ++ a.avatar :: s.nodeId :: l2 else s.dom.children q) := by
    intro q
    rw [children_insertAfter, hm0nid]
    by_cases hqp : q = p
    · rw [if_pos hqp, if_pos hqp, congrFun hm0ch p, hform p]
      by_cases hpb : p = bodyId
      · rw [if_pos hpb, if_pos hpb]
        rw [List.erase_append_right _ (by
          simp only [List.mem_append, List.mem_cons]
          rintro (h | h | h)
          · exact hn1 h
          · exact hnav h
          · exact hn2 h)]
        rw [List.erase_cons_head, List.append_nil]
        rw [insertAfterL_of_not_mem_left _ _ _ _ (fun hh => hAv p (hpar ▸ List.mem_append_left _ hh))]
      · rw [if_neg hpb, if_pos rfl]
        rw [List.erase_of_not_mem (by
          simp only [List.mem_append, List.mem_cons]
          rintro (h | h | h)
          · exact hn1 h
          · exact hnav h
          · exact hn2 h)]
        rw [insertAfterL_of_not_mem_left _ _ _ _ (fun hh => hAv p (hpar ▸ List.mem_append_left _ hh))]
    · rw [if_neg hqp, if_neg hqp, congrFun hm0ch q, hform q]
      by_cases hqb : q = bodyId
      · rw [if_pos hqb]
        have hbp : ¬ p = bodyId := fun hh => hqp (hqb.trans hh.symm)
        rw [if_neg hbp]
        rw [List.erase_append_right _ (hOnly bodyId (fun hh => hbp hh.symm))]
        rw [List.erase_cons_head, List.append_nil, hqb]
      · rw [if_neg hqb, if_neg hqp]
        exact List.erase_of_not_mem (hOnly q hqp)
  -- parent of the avatar after the node is re-inserted next to it
  have hpav1 : ((mountRestoreStyle (dismount a s).1).dom.insertAfter p a.avatar
      (mountRestoreStyle (dismount a s).1).nodeId).parentOf a.avatar = some p := by
    unfold Dom.parentOf
    rw [nodes_insertAfter, hm0nodes, dismount_nodes_red a s p hfind]
    apply find?_eq_some_of_unique _ _ _ hpn
    · simp [hch3 p]
    · intro q hq
      simp only [hch3 q] at hq
      by_cases hqp : q = p
      · exact hqp
      · rw [if_neg hqp] at hq
        exact absurd (by simpa using hq) (hAv q)
  -- mountRestoreStyle restores the original style attribute
  have hm0attrs : (mountRestoreStyle (dismount a s).1).dom.attrs s.nodeId =
      s.dom.attrs s.nodeId := by
    obtain ⟨v0, hv0⟩ := dismount_attrs_node a s hnav
    rcases hfs : s.getAttr "style" with _ | v
    · simp only [mountRestoreStyle, dismount_originalStyle_red, hfs]
      simp only [PanelSt.removeAttr, Dom.removeAttribute, dismount_nodeId_red]
      rw [if_true, hv0, assocRemove_assocSet_self]
      exact assocRemove_self_of_find_none _ _ hfs
    · simp only [mountRestoreStyle, dismount_originalStyle_red, hfs]
      simp only [PanelSt.setAttr, Dom.setAttribute, dismount_nodeId_red]
      rw [if_true, hv0, assocSet_assocSet_same]
      exact assocSet_self_of_find_unique _ _ _ hfs hu
  set m0 : PanelSt := mountRestoreStyle (dismount a s).1 with hm0def
  set M1 : PanelSt := { m0 with dom := m0.dom.insertAfter p a.avatar m0.nodeId } with hM1def
  have hstep2 : mountRemoveAvatar M1 = ({ M1 with dom := M1.dom.removeChild p a.avatar }, true) :=
    mountRemoveAvatar_red M1 a.avatar p hm0av hpav1
  set M2 : PanelSt := { M1 with dom := M1.dom.removeChild p a.avatar } with hM2def
  have hlist2 : M2.listeners = (dismount a s).1.listeners := mountRestoreStyle_listeners _
  have hfin_flag : (removeListeners M2 "dismounting").2 = true := by
    rw [removeListeners_flag_congr M2 (dismount a s).1 "dismounting" hlist2]
    exact dismount_removeListeners_flag a s p hfind
  rcases hrm : removeListeners M2 "dismounting" with ⟨t3, b3⟩
  rw [hrm] at hfin_flag
  have hb3 : b3 = true := hfin_flag
  subst hb3
  have hstep3 := mountFinish_red M2 t3 hrm
  have hmount := mount_assemble (dismount a s).1 M1 M2 _ hAvStep hstep2 hstep3
  have ht3dom : t3.dom = M2.dom := by
    have h := removeListeners_dom M2 "dismounting"
    rw [hrm] at h
    exact h
  have hchFinal : ∀ q, t3.dom.children q = s.dom.children q := by
    intro q
    rw [ht3dom]
    show ((m0.dom.insertAfter p a.avatar m0.nodeId).removeChild p a.avatar).children q =
      s.dom.children q
    rw [children_removeChild]
    by_cases hqp : q = p
    · rw [if_pos hqp, hch3 p, if_pos rfl]
      rw [List.erase_append_right _ (fun hh => hAv p (hpar ▸ List.mem_append_left _ hh))]
      rw [List.erase_cons_head, hqp, hpar]
    · rw [if_neg hqp, hch3 q, if_neg hqp]
  have hattrsFinal : t3.dom.attrs s.nodeId = s.dom.attrs s.nodeId := by
    rw [ht3dom]
    show ((m0.dom.insertAfter p a.avatar m0.nodeId).removeChild p a.avatar).attrs s.nodeId =
      s.dom.attrs s.nodeId
    rw [attrs_removeChild, attrs_insertAfter]
    exact hm0attrs
  refine ⟨hflag, ?_, ?_, ?_, ?_, ?_, ?_, ?_⟩
  · rw [hform p]
    by_cases hpb : p = bodyId
    · simp [hpb]
    · simp [hpb]
  · rw [hform bodyId]
    simp
  · rw [hmount]
  · intro q
    rw [hmount]
    show t3.dom.children q = s.dom.children q
    exact hchFinal q
  · rw [hmount]
    show t3.dom.attrs s.nodeId = s.dom.attrs s.nodeId
    exact hattrsFinal
  · intro q
    rw [hmount]
    show a.avatar ∉ t3.dom.children q
    rw [hchFinal q]
    exact hAv q
  · rw [hmount]

/-- C3 counterexample: in a document where the panel node's parent (node 2)
is itself detached from documentElement, dismount() followed by mount()
does not restore the original tree: both calls complete without raising,
but mount() takes the document.documentElement.contains(avatar) === false
branch and removes the node from its parent, so the node ends up in no
parent at all instead of back under node 2. -/
theorem kolos_C3_counterexample :
    (dismount wArgs cPanel).2 = true ∧
    (mount (dismount wArgs cPanel).1).2 = true ∧
    (mount (dismount wArgs cPanel).1).1.dom.children 2 = [] ∧
    (mount (dismount wArgs cPanel).1).1.dom.parentOf cPanel.nodeId = none := by
  decide

/-- Witness: the round-trip theorem applied to the concrete attached
document wDom (documentElement 0 > body 1 > container 2 > panel 3, avatar
4), instantiating every hypothesis. -/
theorem kolos_C3_witness :
    (dismount wArgs wPanel).2 = true ∧
    (mount (dismount wArgs wPanel).1).2 = true ∧
    (∀ q, (mount (dismount wArgs wPanel).1).1.dom.children q = wPanel.dom.children q) ∧
    (mount (dismount wArgs wPanel).1).1.dom.attrs wPanel.nodeId = wPanel.dom.attrs wPanel.nodeId ∧
    (mount (dismount wArgs wPanel).1).1.isDismounted = false := by
  have h := kolos_C3_thm wPanel wArgs 2 [] [] [1, 0]
    (by decide) (by decide) (by decide)
    (fun q hq => by
      simp only [wPanel, wDom]
      split_ifs <;> decide)
    (fun q => by
      simp only [wPanel, wDom]
      split_ifs <;> decide)
    (by decide) (by decide) (by decide) (by decide) (by decide)
    ⟨by decide, by decide, rfl⟩
    (by decide) (by decide) (by decide) (by decide)
  exact ⟨h.1, h.2.2.2.1, h.2.2.2.2.1, h.2.2.2.2.2.1, h.2.2.2.2.2.2.2⟩
